import Mathlib

/-!
# TeamForge — verification of the skill-matching and agent core

Shallow embedding of the TeamForge backend core:

* `skillMatcher.ts` — skill normalisation, ad-hoc vocabulary, binary
  term-presence vectors, cosine similarity, the ranking pipeline;
* `embeddingMatcher.ts` — the embedding-based ranker with its process-wide
  cache, modelled with an explicit cache state and an explicit embedding
  provider function;
* `draftIntroMessage.ts` / `matchUsersBySkills.ts` — the two agent tools,
  with MongoDB lookups modelled as lookups in an explicit environment;
* `boundedAgent.ts` — the deterministic rule-based agent;
* `openaiAgent.ts` — the LLM-driven loop, with the model's completions
  supplied as an arbitrary function of the conversation so far.

JavaScript numbers are modelled as real numbers (`ℝ`), `Math.sqrt` as
`Real.sqrt`, and `parseFloat(x.toFixed(4))` as rounding to the nearest
multiple of `1/10000`.  JavaScript's stable `Array.prototype.sort cmp` is
modelled as `List.insertionSort r` where `r a b` holds iff `cmp a b ≤ 0`,
which reproduces the stable-sort order.
-/

namespace TeamForge

/-! ## Vectorizer (`skillMatcher.ts`) -/

/-- A character kept by the strip `replace(/[^a-z0-9\s]/g, '')` (the strip runs
after `toLowerCase`, so the letter range is `a`–`z`). -/
def keepChar (c : Char) : Bool :=
  (('a' ≤ c) && (c ≤ 'z')) || c.isDigit || c.isWhitespace

/-- `replace(/\s+/g, ' ')`, one character at a time: `insideRun` records
whether the previous character belonged to a whitespace run, so each maximal
whitespace run contributes exactly one `' '`. -/
def collapseWsAux (insideRun : Bool) : List Char → List Char
  | [] => []
  | c :: rest =>
    if c.isWhitespace then
      if insideRun then collapseWsAux true rest
      else ' ' :: collapseWsAux true rest
    else c :: collapseWsAux false rest

/-- `replace(/\s+/g, ' ')`: each maximal whitespace run becomes one space. -/
def collapseWs (l : List Char) : List Char :=
  collapseWsAux false l

/-- `String.prototype.trim()` on the character list. -/
def trimWs (l : List Char) : List Char :=
  List.rdropWhile Char.isWhitespace (List.dropWhile Char.isWhitespace l)

/-- `normaliseSkill`: lowercase, strip `[^a-z0-9\s]`, collapse whitespace
runs to one space, trim. -/
def normaliseSkill (s : String) : String :=
  String.mk (trimWs (collapseWs ((s.data.map Char.toLower).filter keepChar)))

/-- `buildVocabulary`'s inner loop over one skill set: append each normalised
skill that is non-empty and not yet present, preserving first-seen order. -/
def addSkills (vocab : List String) (skills : List String) : List String :=
  skills.foldl (fun v skill =>
    let norm := normaliseSkill skill
    if norm ≠ "" ∧ norm ∉ v then v ++ [norm] else v) vocab

/-- `buildVocabulary`: the vocabulary as the list of normalised skills in
first-seen order (the map's index of a token is its position here). -/
def buildVocabulary (allSkillSets : List (List String)) : List String :=
  allSkillSets.foldl addSkills []

/-- `encodeVector`: zero-filled vector of length `|vocab|`; coordinate of each
normalised input skill found in the vocabulary is set to `1.0`. -/
noncomputable def encodeVector (skills : List String) (vocab : List String) :
    List ℝ :=
  skills.foldl (fun vec skill =>
    match vocab.indexOf? (normaliseSkill skill) with
    | some i => vec.set i 1
    | none => vec) (List.replicate vocab.length (0 : ℝ))

/-! ## Similarity Ranker (`skillMatcher.ts`) -/

/-- `cosineSimilarity`: loop over the indices of `a`, accumulating the dot
product and both squared norms; `0` when either norm is zero. -/
noncomputable def cosineSimilarity (a b : List ℝ) : ℝ :=
  let dot := ∑ i ∈ Finset.range a.length, a.getD i 0 * b.getD i 0
  let normA := ∑ i ∈ Finset.range a.length, a.getD i 0 * a.getD i 0
  let normB := ∑ i ∈ Finset.range a.length, b.getD i 0 * b.getD i 0
  let denom := Real.sqrt normA * Real.sqrt normB
  if denom = 0 then 0 else dot / denom

/-- `parseFloat(x.toFixed(4))`: round to the nearest multiple of `1/10000`. -/
noncomputable def round4 (x : ℝ) : ℝ := (round (x * 10000) : ℤ) / 10000

structure UserSkillProfile where
  userId : String
  name : String
  email : String
  bio : String
  skills : List String
  availability : String

structure ScoredMatch where
  userId : String
  name : String
  email : String
  bio : String
  skills : List String
  availability : String
  matchedSkills : List String
  cosineSimilarity : ℝ
  matchScore : ℕ
  totalSkills : ℕ

/-- The body of the `users.map` of `rankUsersBySkills`: score one user
against the encoded query. -/
noncomputable def scoreEntry (vocab : List String) (queryVec : List ℝ)
    (normalisedQuery : List String) (user : UserSkillProfile) : ScoredMatch :=
  let userVec := encodeVector user.skills vocab
  let score := cosineSimilarity queryVec userVec
  let normUserSkills := user.skills.map normaliseSkill
  let matchedSkills :=
    user.skills.filter fun s => normalisedQuery.contains (normaliseSkill s)
  { userId := user.userId
    name := user.name
    email := user.email
    bio := user.bio
    skills := user.skills
    availability := user.availability
    matchedSkills := matchedSkills
    cosineSimilarity := round4 score
    matchScore := matchedSkills.length
    totalSkills := normUserSkills.length }

/-- The `scored` array of `rankUsersBySkills`: one `ScoredMatch` per user,
in user order, carrying the 4-decimal-rounded cosine similarity. -/
noncomputable def scoredMatchesOf (querySkills : List String)
    (users : List UserSkillProfile) : List ScoredMatch :=
  users.map
    (scoreEntry (buildVocabulary (querySkills :: users.map (·.skills)))
      (encodeVector querySkills
        (buildVocabulary (querySkills :: users.map (·.skills))))
      (querySkills.map normaliseSkill))

/-- The sort comparator `b.cosineSimilarity - a.cosineSimilarity ||
b.matchScore - a.matchScore || b.totalSkills - a.totalSkills`, as the
non-strict "may come first" relation (`cmp a b ≤ 0`). -/
def rankLe (a b : ScoredMatch) : Prop :=
  b.cosineSimilarity < a.cosineSimilarity ∨
    (b.cosineSimilarity = a.cosineSimilarity ∧
      (b.matchScore < a.matchScore ∨
        (b.matchScore = a.matchScore ∧ b.totalSkills ≤ a.totalSkills)))

/-- The sort key of `rankLe`, as a lexicographic triple. -/
def sortKey (m : ScoredMatch) : ℝ ×ₗ (ℕ ×ₗ ℕ) :=
  toLex (m.cosineSimilarity, toLex (m.matchScore, m.totalSkills))

theorem rankLe_iff_sortKey (a b : ScoredMatch) :
    rankLe a b ↔ sortKey b ≤ sortKey a := by
  unfold rankLe sortKey
  rw [Prod.Lex.le_iff, Prod.Lex.le_iff]

noncomputable instance : DecidableRel rankLe := fun _ _ => by
  unfold rankLe; infer_instance

instance : IsTotal ScoredMatch rankLe where
  total a b := by
    rw [rankLe_iff_sortKey, rankLe_iff_sortKey]
    exact le_total (sortKey b) (sortKey a)

instance : IsTrans ScoredMatch rankLe where
  trans a b c hab hbc := by
    rw [rankLe_iff_sortKey] at *
    exact le_trans hbc hab

/-- `rankUsersBySkills`: early-exit on empty inputs, score, filter against
`minScore` (on the stored, rounded similarity), stable-sort descending,
truncate to `topN`. -/
noncomputable def rankUsersBySkills (querySkills : List String)
    (users : List UserSkillProfile) (topN : ℕ := 3)
    (minScore : ℝ := 1 / 10) : List ScoredMatch :=
  if querySkills.length = 0 ∨ users.length = 0 then []
  else
    (List.insertionSort rankLe
        ((scoredMatchesOf querySkills users).filter fun m =>
          decide (minScore ≤ m.cosineSimilarity))).take topN

/-! ## Normalisation facts (towards idempotence of `normaliseSkill`) -/

theorem toLower_of_keepChar {c : Char} (h : keepChar c = true) :
    Char.toLower c = c := by
  simp only [keepChar, Bool.or_eq_true, Bool.and_eq_true, decide_eq_true_eq] at h
  unfold Char.toLower
  rw [if_neg]
  rintro ⟨h1, h2⟩
  rcases h with (⟨ha, hz⟩ | hd) | hw
  · rw [Char.le_def, UInt32.le_def, BitVec.le_def] at ha
    have h97 : (97 : Nat) ≤ c.val.toBitVec.toNat := ha
    have : c.toNat = c.val.toBitVec.toNat := rfl
    omega
  · simp only [Char.isDigit, Bool.and_eq_true, decide_eq_true_eq] at hd
    have h57 := hd.2
    rw [UInt32.le_def, BitVec.le_def] at h57
    have h57b : c.val.toBitVec.toNat ≤ 57 := h57
    have : c.toNat = c.val.toBitVec.toNat := rfl
    omega
  · simp only [Char.isWhitespace, Bool.or_eq_true, decide_eq_true_eq] at hw
    rcases hw with ((hw | hw) | hw) | hw <;> subst hw <;> exact absurd h1 (by decide)

/-- Adjacent characters are never both whitespace. -/
def noWsRun (l : List Char) : Prop :=
  l.Chain' fun a b => ¬(a.isWhitespace = true ∧ b.isWhitespace = true)

theorem mem_collapseWsAux :
    ∀ (b : Bool) (l : List Char), ∀ c ∈ collapseWsAux b l, c = ' ' ∨ c ∈ l := by
  intro b l
  induction l generalizing b with
  | nil => intro c h; simp [collapseWsAux] at h
  | cons d rest ih =>
    intro c h
    by_cases hd : d.isWhitespace = true
    · rw [collapseWsAux, if_pos hd] at h
      cases b with
      | true =>
        rcases ih true c h with h' | h'
        · exact Or.inl h'
        · exact Or.inr (List.mem_cons_of_mem _ h')
      | false =>
        replace h : c ∈ ' ' :: collapseWsAux true rest := h
        rw [List.mem_cons] at h
        rcases h with h | h
        · exact Or.inl h
        · rcases ih true c h with h' | h'
          · exact Or.inl h'
          · exact Or.inr (List.mem_cons_of_mem _ h')
    · rw [collapseWsAux, if_neg hd, List.mem_cons] at h
      rcases h with h | h
      · exact Or.inr (h ▸ List.mem_cons_self _ _)
      · rcases ih false c h with h' | h'
        · exact Or.inl h'
        · exact Or.inr (List.mem_cons_of_mem _ h')

theorem head?_collapseWsAux_true_not_ws :
    ∀ (l : List Char) {c : Char},
      (collapseWsAux true l).head? = some c → c.isWhitespace = false := by
  intro l
  induction l with
  | nil => intro c h; simp [collapseWsAux] at h
  | cons d rest ih =>
    intro c h
    by_cases hd : d.isWhitespace = true
    · rw [collapseWsAux, if_pos hd] at h
      exact ih h
    · rw [collapseWsAux, if_neg hd, List.head?_cons, Option.some.injEq] at h
      subst h
      simpa using hd

theorem noWsRun_collapseWsAux :
    ∀ (l : List Char) (b : Bool), noWsRun (collapseWsAux b l) := by
  intro l
  induction l with
  | nil => intro b; simp [collapseWsAux, noWsRun]
  | cons d rest ih =>
    intro b
    by_cases hd : d.isWhitespace = true
    · cases b with
      | true =>
        rw [collapseWsAux, if_pos hd]
        exact ih true
      | false =>
        rw [collapseWsAux, if_pos hd]
        refine List.chain'_cons'.mpr ⟨?_, ih true⟩
        intro y hy hcon
        have := head?_collapseWsAux_true_not_ws rest (Option.mem_def.mp hy)
        exact Bool.false_ne_true (this ▸ hcon.2)
    · rw [collapseWsAux, if_neg hd]
      refine List.chain'_cons'.mpr ⟨?_, ih false⟩
      intro y _ hcon
      exact hd hcon.1

theorem noWsRun_collapseWs (l : List Char) : noWsRun (collapseWs l) :=
  noWsRun_collapseWsAux l false

theorem ws_collapseWsAux_eq_space :
    ∀ (b : Bool) (l : List Char), ∀ c ∈ collapseWsAux b l,
      c.isWhitespace = true → c = ' ' := by
  intro b l
  induction l generalizing b with
  | nil => intro c h; simp [collapseWsAux] at h
  | cons d rest ih =>
    intro c h hc
    by_cases hd : d.isWhitespace = true
    · rw [collapseWsAux, if_pos hd] at h
      cases b with
      | true => exact ih true c h hc
      | false =>
        replace h : c ∈ ' ' :: collapseWsAux true rest := h
        rw [List.mem_cons] at h
        rcases h with h | h
        · exact h
        · exact ih true c h hc
    · rw [collapseWsAux, if_neg hd, List.mem_cons] at h
      rcases h with h | h
      · exact absurd (h ▸ hc) hd
      · exact ih false c h hc

theorem ws_collapseWs_eq_space (l : List Char) :
    ∀ c ∈ collapseWs l, c.isWhitespace = true → c = ' ' :=
  ws_collapseWsAux_eq_space false l

theorem collapseWsAux_eq_self {l : List Char} (hchain : noWsRun l)
    (hspace : ∀ c ∈ l, c.isWhitespace = true → c = ' ') :
    collapseWsAux false l = l ∧
      ((∀ c ∈ l.head?, c.isWhitespace = false) → collapseWsAux true l = l) := by
  induction l with
  | nil => exact ⟨rfl, fun _ => rfl⟩
  | cons c rest ih =>
    have htail : noWsRun rest := (List.chain'_cons'.mp hchain).2
    have hstail : ∀ d ∈ rest, d.isWhitespace = true → d = ' ' :=
      fun d hd => hspace d (List.mem_cons_of_mem _ hd)
    obtain ⟨ihf, iht⟩ := ih htail hstail
    by_cases hc : c.isWhitespace = true
    · have hcsp : c = ' ' := hspace c (List.mem_cons_self _ _) hc
      have hresthead : ∀ d ∈ rest.head?, d.isWhitespace = false := by
        intro d hd
        have := (List.chain'_cons'.mp hchain).1 d (Option.mem_def.mp hd)
        by_contra hdws
        exact this ⟨hc, by simpa using hdws⟩
      constructor
      · rw [collapseWsAux, if_pos hc, if_neg (by simp), iht hresthead, hcsp]
      · intro hhead
        have := hhead c (by simp)
        rw [hc] at this
        simp at this
    · constructor
      · rw [collapseWsAux, if_neg hc, ihf]
      · intro _
        rw [collapseWsAux, if_neg hc, ihf]

theorem collapseWs_eq_self {l : List Char} (hchain : noWsRun l)
    (hspace : ∀ c ∈ l, c.isWhitespace = true → c = ' ') :
    collapseWs l = l :=
  (collapseWsAux_eq_self hchain hspace).1
theorem trimWs_eq_self {l : List Char}
    (hhead : ∀ c ∈ l.head?, c.isWhitespace = false)
    (hlast : ∀ c ∈ l.getLast?, c.isWhitespace = false) :
    trimWs l = l := by
  unfold trimWs
  have hdrop : l.dropWhile Char.isWhitespace = l := by
    cases l with
    | nil => rfl
    | cons c rest =>
      have hc := hhead c (by simp)
      rw [List.dropWhile_cons, if_neg (by simp [hc])]
  rw [hdrop, List.rdropWhile_eq_self_iff]
  intro hl
  have hmem : l.getLast hl ∈ l.getLast? := by
    rw [List.getLast?_eq_getLast _ hl]; rfl
  simp [hlast _ hmem]

theorem trimWs_infix (l : List Char) : trimWs l <:+: l :=
  (List.rdropWhile_prefix _ _).isInfix.trans
    (List.dropWhile_suffix _).isInfix

theorem head?_trimWs_not_ws {l : List Char} {c : Char}
    (h : (trimWs l).head? = some c) : c.isWhitespace = false := by
  unfold trimWs at h
  have hne : List.rdropWhile Char.isWhitespace
      (l.dropWhile Char.isWhitespace) ≠ [] := by
    intro hnil; rw [hnil] at h; simp at h
  obtain ⟨t, ht⟩ := List.rdropWhile_prefix Char.isWhitespace
    (l.dropWhile Char.isWhitespace)
  have hh : (l.dropWhile Char.isWhitespace).head? = some c := by
    rw [← ht, List.head?_append_of_ne_nil _ hne, h]
  have hne2 : l.dropWhile Char.isWhitespace ≠ [] := by
    intro hnil; rw [hnil] at hh; simp at hh
  have hnot := List.head_dropWhile_not Char.isWhitespace l hne2
  rw [List.head?_eq_head hne2, Option.some.injEq] at hh
  rw [← hh]
  exact hnot

theorem getLast?_trimWs_not_ws {l : List Char} {c : Char}
    (h : (trimWs l).getLast? = some c) : c.isWhitespace = false := by
  have hne : trimWs l ≠ [] := by
    intro hnil; rw [hnil] at h; simp at h
  have hlast := List.rdropWhile_last_not Char.isWhitespace
    (l.dropWhile Char.isWhitespace) hne
  rw [List.getLast?_eq_getLast _ hne, Option.some.injEq] at h
  rw [← h]
  simpa using hlast

/-- The shape of every `normaliseSkill` output: only kept characters, all
whitespace is a single space, no two adjacent spaces, no space at either
end. -/
def canonicalChars (l : List Char) : Prop :=
  (∀ c ∈ l, keepChar c = true) ∧
  (∀ c ∈ l, c.isWhitespace = true → c = ' ') ∧
  noWsRun l ∧
  (∀ c ∈ l.head?, c.isWhitespace = false) ∧
  (∀ c ∈ l.getLast?, c.isWhitespace = false)

theorem canonicalChars_normaliseSkill (s : String) :
    canonicalChars (normaliseSkill s).data := by
  unfold normaliseSkill canonicalChars
  set l0 := (s.data.map Char.toLower).filter keepChar with hl0
  have h0 : ∀ c ∈ l0, keepChar c = true := fun c hc => (List.mem_filter.mp hc).2
  have hsub : trimWs (collapseWs l0) <:+: collapseWs l0 := trimWs_infix _
  refine ⟨?_, ?_, ?_, ?_, ?_⟩
  · intro c hc
    rcases mem_collapseWsAux false l0 c (hsub.sublist.mem hc) with h | h
    · subst h; decide
    · exact h0 c h
  · intro c hc
    exact ws_collapseWs_eq_space l0 c (hsub.sublist.mem hc)
  · exact List.Chain'.infix (noWsRun_collapseWs l0) hsub
  · intro c hc
    exact head?_trimWs_not_ws (Option.mem_def.mp hc)
  · intro c hc
    exact getLast?_trimWs_not_ws (Option.mem_def.mp hc)

theorem normaliseSkill_of_canonical {l : List Char} (h : canonicalChars l) :
    normaliseSkill (String.mk l) = String.mk l := by
  obtain ⟨hk, hs, hchain, hhead, hlast⟩ := h
  unfold normaliseSkill
  have hmap : l.map Char.toLower = l := by
    clear hs hchain hhead hlast
    induction l with
    | nil => rfl
    | cons c rest ih =>
      simp only [List.map_cons,
        toLower_of_keepChar (hk c (List.mem_cons_self _ _)),
        List.cons.injEq, true_and]
      exact ih fun x hx => hk x (List.mem_cons_of_mem _ hx)
  have hfilter : l.filter keepChar = l := List.filter_eq_self.mpr hk
  have hcoll : collapseWs l = l := collapseWs_eq_self hchain hs
  have htrim : trimWs l = l := trimWs_eq_self hhead hlast
  show String.mk (trimWs (collapseWs ((String.mk l).data.map Char.toLower |>.filter keepChar))) = String.mk l
  have hdata : (String.mk l).data = l := rfl
  rw [hdata, hmap, hfilter, hcoll, htrim]

/-- C9: `normaliseSkill` is idempotent — normalising an already-normalised
skill string (lowercase, `[a-z0-9 ]` only, single internal spaces, trimmed)
changes nothing: `normaliseSkill (normaliseSkill s) = normaliseSkill s`. -/
theorem C9_normaliseSkill_idempotent (s : String) :
    normaliseSkill (normaliseSkill s) = normaliseSkill s :=
  normaliseSkill_of_canonical (canonicalChars_normaliseSkill s)

/-! ## Cosine-similarity facts -/

theorem cosineSimilarity_def (a b : List ℝ) :
    cosineSimilarity a b =
      if Real.sqrt (∑ i ∈ Finset.range a.length, a.getD i 0 * a.getD i 0) *
          Real.sqrt (∑ i ∈ Finset.range a.length, b.getD i 0 * b.getD i 0) = 0
      then 0
      else (∑ i ∈ Finset.range a.length, a.getD i 0 * b.getD i 0) /
        (Real.sqrt (∑ i ∈ Finset.range a.length, a.getD i 0 * a.getD i 0) *
          Real.sqrt (∑ i ∈ Finset.range a.length, b.getD i 0 * b.getD i 0)) :=
  rfl

theorem getD_replicate_zero (n i : ℕ) :
    (List.replicate n (0 : ℝ)).getD i 0 = 0 := by
  rcases lt_or_ge i n with h | h
  · rw [List.getD_eq_getElem _ _ (by simpa using h)]
    simp
  · rw [List.getD_eq_default _ _ (by simpa using h)]

theorem cosineSimilarity_self {v : List ℝ} (h : ∃ x ∈ v, x ≠ 0) :
    cosineSimilarity v v = 1 := by
  obtain ⟨x, hxv, hx0⟩ := h
  obtain ⟨i, hilt, hieq⟩ := List.mem_iff_getElem.mp hxv
  rw [cosineSimilarity_def]
  set S := ∑ i ∈ Finset.range v.length, v.getD i 0 * v.getD i 0 with hS
  have hSnonneg : 0 ≤ S :=
    Finset.sum_nonneg fun j _ => mul_self_nonneg _
  have hSpos : 0 < S := by
    have hterm : 0 < v.getD i 0 * v.getD i 0 := by
      rw [List.getD_eq_getElem _ _ hilt, hieq]
      exact mul_self_pos.mpr hx0
    calc (0 : ℝ) < v.getD i 0 * v.getD i 0 := hterm
    _ ≤ S :=
      Finset.single_le_sum (fun j _ => mul_self_nonneg (v.getD j 0))
        (Finset.mem_range.mpr hilt)
  rw [Real.mul_self_sqrt hSnonneg, if_neg (ne_of_gt hSpos)]
  exact div_self (ne_of_gt hSpos)

theorem cosineSimilarity_zero_left (n : ℕ) (w : List ℝ) :
    cosineSimilarity (List.replicate n 0) w = 0 := by
  rw [cosineSimilarity_def]
  have : ∑ i ∈ Finset.range (List.replicate n (0 : ℝ)).length,
      (List.replicate n (0 : ℝ)).getD i 0 * (List.replicate n (0 : ℝ)).getD i 0 = 0 := by
    apply Finset.sum_eq_zero
    intro j _
    rw [getD_replicate_zero]
    ring
  rw [this, Real.sqrt_zero, zero_mul, if_pos rfl]

theorem cosineSimilarity_zero_right (n : ℕ) (w : List ℝ) :
    cosineSimilarity w (List.replicate n 0) = 0 := by
  rw [cosineSimilarity_def]
  have : ∑ i ∈ Finset.range w.length,
      (List.replicate n (0 : ℝ)).getD i 0 * (List.replicate n (0 : ℝ)).getD i 0 = 0 := by
    apply Finset.sum_eq_zero
    intro j _
    rw [getD_replicate_zero]
    ring
  rw [this, Real.sqrt_zero, mul_zero, if_pos rfl]

/-- C6: `cosineSimilarity v v = 1` for every vector with a non-zero
coordinate, and the cosine of the all-zero vector with any vector — on
either side — is exactly `0` (the `denom === 0` edge-case policy of
`cosineSimilarity`), never undefined. -/
theorem C6_cosine_self_and_zero_policy :
    (∀ v : List ℝ, (∃ x ∈ v, x ≠ 0) → cosineSimilarity v v = 1) ∧
    (∀ (n : ℕ) (w : List ℝ), cosineSimilarity (List.replicate n 0) w = 0 ∧
      cosineSimilarity w (List.replicate n 0) = 0) :=
  ⟨fun _ h => cosineSimilarity_self h,
   fun n w => ⟨cosineSimilarity_zero_left n w, cosineSimilarity_zero_right n w⟩⟩

/-- C6 witness: the two policies at concrete vectors `[1]` and the
2-dimensional zero vector. -/
theorem C6_cosine_witness :
    cosineSimilarity [(1 : ℝ)] [(1 : ℝ)] = 1 ∧
      cosineSimilarity (List.replicate 2 (0 : ℝ)) [(1 : ℝ), (1 : ℝ)] = 0 :=
  ⟨C6_cosine_self_and_zero_policy.1 [(1 : ℝ)] ⟨1, by simp, one_ne_zero⟩,
   (C6_cosine_self_and_zero_policy.2 2 [(1 : ℝ), (1 : ℝ)]).1⟩

/-! ## Embedding matcher (`embeddingMatcher.ts`)

The OpenAI embedding endpoint is modelled as an explicit `provider` function
from the request text to the returned vector, and the process-wide cache as
an explicit `EmbedState` threaded through the calls (the `Promise.all`
batches issue their cache lookups in argument order).  The
`Float32Array`/`number[]` conversion in `embeddingCosine` is the identity
in the real-number model. -/

abbrev EmbeddingVector := List ℝ

/-- The module-level `embeddingCache` (iteration order = insertion order)
plus a log of the texts sent to the embedding provider. -/
structure EmbedState where
  cache : List (String × EmbeddingVector)
  providerCalls : List String

def MAX_CACHE_SIZE : ℕ := 5000

/-- `s.toLowerCase().trim()`. -/
def lowerTrim (s : String) : String :=
  String.mk (trimWs (s.data.map Char.toLower))

/-- `getCacheKey`: lowercase+trim each skill, sort, join with `"|"`. -/
def getCacheKey (skills : List String) : String :=
  String.intercalate "|"
    (List.insertionSort (· ≤ ·) (skills.map lowerTrim))

/-- `skills.join(', ')`. -/
def joinComma (skills : List String) : String :=
  String.intercalate ", " skills

/-- `generateSkillEmbedding`: all-zero 1536-vector for an empty skill list
(before any cache access), else cache lookup, else a provider call with
oldest-first eviction once the cache holds `MAX_CACHE_SIZE` entries. -/
noncomputable def generateSkillEmbedding (provider : String → EmbeddingVector)
    (skills : List String) (st : EmbedState) : EmbeddingVector × EmbedState :=
  if skills.length = 0 then (List.replicate 1536 0, st)
  else
    let cacheKey := getCacheKey skills
    match st.cache.find? (fun p => p.1 == cacheKey) with
    | some p => (p.2, st)
    | none =>
      let text := joinComma skills
      let vector := provider text
      let cache' :=
        if MAX_CACHE_SIZE ≤ st.cache.length then st.cache.drop 1 else st.cache
      (vector,
        { cache := cache' ++ [(cacheKey, vector)]
          providerCalls := st.providerCalls ++ [text] })

/-- `embeddingCosine` — `cosineSimilarity` after the array conversion. -/
noncomputable def embeddingCosine (a b : EmbeddingVector) : ℝ :=
  cosineSimilarity a b

/-- Embed a list of skill lists, threading the cache state. -/
noncomputable def embedAll (provider : String → EmbeddingVector) :
    List (List String) → EmbedState → List EmbeddingVector × EmbedState
  | [], st => ([], st)
  | s :: rest, st =>
    let r := generateSkillEmbedding provider s st
    let rs := embedAll provider rest r.2
    (r.1 :: rs.1, rs.2)

/-- One entry of the `scored` array of `rankUsersWithEmbeddings`. -/
noncomputable def embedEntry (querySet : List String) (queryVec : EmbeddingVector)
    (user : UserSkillProfile) (vec : EmbeddingVector) : ScoredMatch :=
  let matchedSkills := user.skills.filter fun s => querySet.contains (lowerTrim s)
  { userId := user.userId
    name := user.name
    email := user.email
    bio := user.bio
    skills := user.skills
    availability := user.availability
    matchedSkills := matchedSkills
    cosineSimilarity := round4 (embeddingCosine queryVec vec)
    matchScore := matchedSkills.length
    totalSkills := user.skills.length }

/-- The `scored` array of `rankUsersWithEmbeddings` plus the cache state
after embedding the query and every user. -/
noncomputable def scoredWithEmbeddings (provider : String → EmbeddingVector)
    (querySkills : List String) (users : List UserSkillProfile)
    (st : EmbedState) : List ScoredMatch × EmbedState :=
  (List.zipWith
      (embedEntry (querySkills.map lowerTrim)
        (generateSkillEmbedding provider querySkills st).1)
      users
      (embedAll provider (users.map (·.skills))
        (generateSkillEmbedding provider querySkills st).2).1,
    (embedAll provider (users.map (·.skills))
      (generateSkillEmbedding provider querySkills st).2).2)

/-- The embedding ranker's comparator `b.cosineSimilarity -
a.cosineSimilarity` as the non-strict "may come first" relation. -/
def embLe (a b : ScoredMatch) : Prop :=
  b.cosineSimilarity ≤ a.cosineSimilarity

noncomputable instance : DecidableRel embLe := fun _ _ => by
  unfold embLe; infer_instance

instance : IsTotal ScoredMatch embLe where
  total a b := le_total b.cosineSimilarity a.cosineSimilarity

instance : IsTrans ScoredMatch embLe where
  trans _ _ _ hab hbc := le_trans hbc hab

/-- `rankUsersWithEmbeddings`: early exit on empty inputs, embed, score,
filter against `minScore` (default 0.3) on the stored rounded similarity,
stable-sort descending by similarity alone, truncate to `topN`. -/
noncomputable def rankUsersWithEmbeddings (provider : String → EmbeddingVector)
    (querySkills : List String) (users : List UserSkillProfile)
    (topN : ℕ := 3) (minScore : ℝ := 3 / 10) (st : EmbedState) :
    List ScoredMatch × EmbedState :=
  if querySkills.length = 0 ∨ users.length = 0 then ([], st)
  else
    ((List.insertionSort embLe
        ((scoredWithEmbeddings provider querySkills users st).1.filter fun m =>
          decide (minScore ≤ m.cosineSimilarity))).take topN,
      (scoredWithEmbeddings provider querySkills users st).2)

/-! ## Ranking-pipeline structure -/

theorem length_scoredMatchesOf (q : List String) (us : List UserSkillProfile) :
    (scoredMatchesOf q us).length = us.length := by
  unfold scoredMatchesOf
  simp

theorem mem_scoredMatchesOf {q : List String} {us : List UserSkillProfile}
    {m : ScoredMatch} (h : m ∈ scoredMatchesOf q us) :
    ∃ u ∈ us, m =
      scoreEntry (buildVocabulary (q :: us.map (·.skills)))
        (encodeVector q (buildVocabulary (q :: us.map (·.skills))))
        (q.map normaliseSkill) u := by
  unfold scoredMatchesOf at h
  obtain ⟨u, hu, heq⟩ := List.mem_map.mp h
  exact ⟨u, hu, heq.symm⟩

theorem scoreEntry_matchScore (vocab : List String) (queryVec : List ℝ)
    (nq : List String) (u : UserSkillProfile) :
    (scoreEntry vocab queryVec nq u).matchScore =
      (scoreEntry vocab queryVec nq u).matchedSkills.length := rfl

theorem scoreEntry_matchedSkills_sublist (vocab : List String)
    (queryVec : List ℝ) (nq : List String) (u : UserSkillProfile) :
    (scoreEntry vocab queryVec nq u).matchedSkills.Sublist u.skills :=
  List.filter_sublist _

theorem mem_rankUsersBySkills {q : List String} {us : List UserSkillProfile}
    {n : ℕ} {t : ℝ} {m : ScoredMatch} (h : m ∈ rankUsersBySkills q us n t) :
    m ∈ scoredMatchesOf q us := by
  unfold rankUsersBySkills at h
  split at h
  · simp at h
  · have h1 := (List.take_sublist _ _).mem h
    have h2 := (List.perm_insertionSort rankLe _).subset h1
    exact (List.mem_filter.mp h2).1

theorem exists_of_mem_zipWith {α β γ : Type} {f : α → β → γ}
    {as : List α} {bs : List β} {x : γ} (h : x ∈ List.zipWith f as bs) :
    ∃ a ∈ as, ∃ b ∈ bs, x = f a b := by
  induction as generalizing bs with
  | nil => simp at h
  | cons a as' ih =>
    cases bs with
    | nil => simp at h
    | cons b bs' =>
      rw [List.zipWith_cons_cons, List.mem_cons] at h
      rcases h with h | h
      · exact ⟨a, List.mem_cons_self _ _, b, List.mem_cons_self _ _, h⟩
      · obtain ⟨a', ha', b', hb', hx⟩ := ih h
        exact ⟨a', List.mem_cons_of_mem _ ha', b', List.mem_cons_of_mem _ hb', hx⟩

theorem embedEntry_matchScore (querySet : List String) (qv : EmbeddingVector)
    (u : UserSkillProfile) (v : EmbeddingVector) :
    (embedEntry querySet qv u v).matchScore =
      (embedEntry querySet qv u v).matchedSkills.length := rfl

theorem embedEntry_matchedSkills_sublist (querySet : List String)
    (qv : EmbeddingVector) (u : UserSkillProfile) (v : EmbeddingVector) :
    (embedEntry querySet qv u v).matchedSkills.Sublist u.skills :=
  List.filter_sublist _

theorem mem_rankUsersWithEmbeddings {provider : String → EmbeddingVector}
    {q : List String} {us : List UserSkillProfile} {n : ℕ} {t : ℝ}
    {st : EmbedState} {m : ScoredMatch}
    (h : m ∈ (rankUsersWithEmbeddings provider q us n t st).1) :
    m ∈ (scoredWithEmbeddings provider q us st).1 := by
  unfold rankUsersWithEmbeddings at h
  split at h
  · simp at h
  · have h1 := (List.take_sublist _ _).mem h
    have h2 := (List.perm_insertionSort embLe _).subset h1
    exact (List.mem_filter.mp h2).1

/-- C5 (amended): both rankers return at most `topN` results, never more
than there are candidates; the binary ranker's output is sorted by the
three-key descending comparator (`cosineSimilarity`, then `matchScore`,
then `totalSkills`), while the embedding ranker's output is sorted
non-increasing by `cosineSimilarity` alone (its comparator has no
tie-break keys). -/
theorem C5_rank_sorted_and_bounded :
    (∀ (q : List String) (us : List UserSkillProfile) (n : ℕ) (t : ℝ),
      List.Sorted rankLe (rankUsersBySkills q us n t) ∧
      (rankUsersBySkills q us n t).length ≤ n ∧
      (rankUsersBySkills q us n t).length ≤ us.length) ∧
    (∀ (provider : String → EmbeddingVector) (q : List String)
        (us : List UserSkillProfile) (n : ℕ) (t : ℝ) (st : EmbedState),
      List.Sorted embLe (rankUsersWithEmbeddings provider q us n t st).1 ∧
      (rankUsersWithEmbeddings provider q us n t st).1.length ≤ n ∧
      (rankUsersWithEmbeddings provider q us n t st).1.length ≤ us.length) := by
  constructor
  · intro q us n t
    unfold rankUsersBySkills
    split
    · simp
    · refine ⟨?_, ?_, ?_⟩
      · exact
          List.Pairwise.sublist (List.take_sublist _ _)
            (List.sorted_insertionSort rankLe _)
      · exact List.length_take_le _ _
      · refine (List.take_sublist _ _).length_le.trans ?_
        rw [(List.perm_insertionSort rankLe _).length_eq]
        exact (List.length_filter_le _ _).trans
          (length_scoredMatchesOf q us).le
  · intro provider q us n t st
    unfold rankUsersWithEmbeddings
    split
    · simp
    · refine ⟨?_, ?_, ?_⟩
      · exact
          List.Pairwise.sublist (List.take_sublist _ _)
            (List.sorted_insertionSort embLe _)
      · exact List.length_take_le _ _
      · refine (List.take_sublist _ _).length_le.trans ?_
        rw [(List.perm_insertionSort embLe _).length_eq]
        refine (List.length_filter_le _ _).trans ?_
        unfold scoredWithEmbeddings
        rw [List.length_zipWith]
        exact min_le_left _ _

/-- C7: in both rankers, every returned `ScoredMatch` carries
`matchScore = |matchedSkills|`, and its `matchedSkills` is a sublist of the
raw `skills` list of one of the supplied candidates (original casing and
order preserved). -/
theorem C7_matchedSkills_subset_and_matchScore :
    (∀ (q : List String) (us : List UserSkillProfile) (n : ℕ) (t : ℝ),
      (rankUsersBySkills q us n t).Forall fun m =>
        m.matchScore = m.matchedSkills.length ∧
        ∃ u ∈ us, m.matchedSkills.Sublist u.skills) ∧
    (∀ (provider : String → EmbeddingVector) (q : List String)
        (us : List UserSkillProfile) (n : ℕ) (t : ℝ) (st : EmbedState),
      (rankUsersWithEmbeddings provider q us n t st).1.Forall fun m =>
        m.matchScore = m.matchedSkills.length ∧
        ∃ u ∈ us, m.matchedSkills.Sublist u.skills) := by
  constructor
  · intro q us n t
    rw [List.forall_iff_forall_mem]
    intro m hm
    obtain ⟨u, hu, heq⟩ := mem_scoredMatchesOf (mem_rankUsersBySkills hm)
    subst heq
    exact ⟨scoreEntry_matchScore _ _ _ _,
      u, hu, scoreEntry_matchedSkills_sublist _ _ _ _⟩
  · intro provider q us n t st
    rw [List.forall_iff_forall_mem]
    intro m hm
    have h2 := mem_rankUsersWithEmbeddings hm
    unfold scoredWithEmbeddings at h2
    obtain ⟨u, hu, v, _, heq⟩ := exists_of_mem_zipWith h2
    subst heq
    exact ⟨embedEntry_matchScore _ _ _ _,
      u, hu, embedEntry_matchedSkills_sublist _ _ _ _⟩

/-! ## C10: empty skill lists in the embedding ranker -/

theorem round4_zero : round4 0 = 0 := by
  unfold round4
  norm_num

theorem generateSkillEmbedding_nil (provider : String → EmbeddingVector)
    (st : EmbedState) :
    generateSkillEmbedding provider [] st = (List.replicate 1536 0, st) := rfl

theorem scoredWithEmbeddings_empty_skills_zero
    (provider : String → EmbeddingVector) (querySet : List String)
    (qv : EmbeddingVector) :
    ∀ (users : List UserSkillProfile) (st : EmbedState),
      (List.zipWith (embedEntry querySet qv) users
        (embedAll provider (users.map (·.skills)) st).1).Forall
          fun m => m.skills = [] → m.cosineSimilarity = 0 := by
  intro users
  induction users with
  | nil => intro st; simp [embedAll]
  | cons u rest ih =>
    intro st
    rw [List.map_cons]
    show (List.zipWith (embedEntry querySet qv) (u :: rest)
      ((generateSkillEmbedding provider u.skills st).1 ::
        (embedAll provider (rest.map (·.skills))
          (generateSkillEmbedding provider u.skills st).2).1)).Forall _
    rw [List.zipWith_cons_cons, List.forall_cons]
    constructor
    · intro hskills
      have hsk : u.skills = [] := hskills
      show round4 (embeddingCosine qv
        (generateSkillEmbedding provider u.skills st).1) = 0
      rw [hsk, generateSkillEmbedding_nil]
      show round4 (embeddingCosine qv (List.replicate 1536 0)) = 0
      rw [embeddingCosine, cosineSimilarity_zero_right, round4_zero]
    · exact ih _

/-- C10: `generateSkillEmbedding` on an empty skill list returns the
1536-dimensional all-zero vector with the cache state untouched and no text
sent to the provider; consequently, in the embedding ranker's scored array a
candidate with no skills always carries cosine similarity `0`. -/
theorem C10_empty_skills_zero_embedding :
    (∀ (provider : String → EmbeddingVector) (st : EmbedState),
      generateSkillEmbedding provider [] st = (List.replicate 1536 0, st) ∧
      (List.replicate (1536 : ℕ) (0 : ℝ)).length = 1536) ∧
    (∀ w : EmbeddingVector, embeddingCosine w (List.replicate 1536 0) = 0) ∧
    (∀ (provider : String → EmbeddingVector) (q : List String)
        (us : List UserSkillProfile) (st : EmbedState),
      (scoredWithEmbeddings provider q us st).1.Forall
        fun m => m.skills = [] → m.cosineSimilarity = 0) := by
  refine ⟨fun provider st =>
    ⟨generateSkillEmbedding_nil provider st, List.length_replicate _ _⟩,
    fun w => cosineSimilarity_zero_right 1536 w, ?_⟩
  intro provider q us st
  unfold scoredWithEmbeddings
  exact scoredWithEmbeddings_empty_skills_zero provider (q.map lowerTrim)
    (generateSkillEmbedding provider q st).1 us
    (generateSkillEmbedding provider q st).2

/-! ## C3: what the filter and sort are computed on -/

theorem scoreEntry_cosineSimilarity (vocab : List String) (qv : List ℝ)
    (nq : List String) (u : UserSkillProfile) :
    (scoreEntry vocab qv nq u).cosineSimilarity =
      round4 (cosineSimilarity qv (encodeVector u.skills vocab)) := rfl

/-- The three-key comparator on (full-precision score, entry) pairs. -/
def fullPrecLe (a b : ℝ × ScoredMatch) : Prop :=
  b.1 < a.1 ∨ (b.1 = a.1 ∧
    (b.2.matchScore < a.2.matchScore ∨
      (b.2.matchScore = a.2.matchScore ∧ b.2.totalSkills ≤ a.2.totalSkills)))

def fullPrecKey (p : ℝ × ScoredMatch) : ℝ ×ₗ (ℕ ×ₗ ℕ) :=
  toLex (p.1, toLex (p.2.matchScore, p.2.totalSkills))

theorem fullPrecLe_iff_key (a b : ℝ × ScoredMatch) :
    fullPrecLe a b ↔ fullPrecKey b ≤ fullPrecKey a := by
  unfold fullPrecLe fullPrecKey
  rw [Prod.Lex.le_iff, Prod.Lex.le_iff]

noncomputable instance : DecidableRel fullPrecLe := fun _ _ => by
  unfold fullPrecLe; infer_instance

instance : IsTotal (ℝ × ScoredMatch) fullPrecLe where
  total a b := by
    rw [fullPrecLe_iff_key, fullPrecLe_iff_key]
    exact le_total (fullPrecKey b) (fullPrecKey a)

instance : IsTrans (ℝ × ScoredMatch) fullPrecLe where
  trans a b c hab hbc := by
    rw [fullPrecLe_iff_key] at *
    exact le_trans hbc hab

/-- Modelled from the spec: C3's reading of `rankUsersBySkills`, in which
"internal comparisons for sorting/filtering use full precision" — the
`minScore` filter and the three-key sort are taken on the unrounded cosine
similarity, and rounding is applied only to the reported entry. -/
noncomputable def rankUsersBySkillsFullPrec (querySkills : List String)
    (users : List UserSkillProfile) (topN : ℕ := 3)
    (minScore : ℝ := 1 / 10) : List ScoredMatch :=
  if querySkills.length = 0 ∨ users.length = 0 then []
  else
    ((List.insertionSort fullPrecLe
        ((users.map fun u =>
          (cosineSimilarity
              (encodeVector querySkills
                (buildVocabulary (querySkills :: users.map (·.skills))))
              (encodeVector u.skills
                (buildVocabulary (querySkills :: users.map (·.skills)))),
            scoreEntry (buildVocabulary (querySkills :: users.map (·.skills)))
              (encodeVector querySkills
                (buildVocabulary (querySkills :: users.map (·.skills))))
              (querySkills.map normaliseSkill) u)).filter fun p =>
            decide (minScore ≤ p.1))).take topN).map (·.2)

/-- C3 (amended): `rankUsersBySkills` filters and sorts on the similarity
value already rounded to 4 decimals — the same value it reports: every
returned match satisfies `minScore ≤` its (rounded) `cosineSimilarity`, the
output is sorted by the comparator on the rounded value, and the reported
value is exactly `round4` of the full-precision cosine of the query and
candidate encodings. -/
theorem C3_rank_decisions_on_rounded (q : List String)
    (us : List UserSkillProfile) (n : ℕ) (t : ℝ) :
    ((rankUsersBySkills q us n t).Forall fun m => t ≤ m.cosineSimilarity) ∧
    List.Sorted rankLe (rankUsersBySkills q us n t) ∧
    ((rankUsersBySkills q us n t).Forall fun m =>
      ∃ u ∈ us, m.cosineSimilarity =
        round4 (cosineSimilarity
          (encodeVector q (buildVocabulary (q :: us.map (·.skills))))
          (encodeVector u.skills
            (buildVocabulary (q :: us.map (·.skills)))))) := by
  refine ⟨?_, ?_, ?_⟩
  · rw [List.forall_iff_forall_mem]
    intro m hm
    unfold rankUsersBySkills at hm
    split at hm
    · simp at hm
    · have h1 := (List.take_sublist _ _).mem hm
      have h2 := (List.perm_insertionSort rankLe _).subset h1
      exact of_decide_eq_true (List.mem_filter.mp h2).2
  · unfold rankUsersBySkills
    split
    · simp
    · exact
        List.Pairwise.sublist (List.take_sublist _ _)
          (List.sorted_insertionSort rankLe _)
  · rw [List.forall_iff_forall_mem]
    intro m hm
    obtain ⟨u, hu, heq⟩ := mem_scoredMatchesOf (mem_rankUsersBySkills hm)
    exact ⟨u, hu, heq ▸ scoreEntry_cosineSimilarity _ _ _ _⟩

/-! Concrete inputs for the C3 counterexample: query `["a"]` against one
candidate with skills `["a", "b"]`.  The full-precision similarity is
`1/√2 ≈ 0.70710678`; rounded it is `0.7071`.  A `minScore` of `0.707105`
separates the two: the code (filtering on the rounded value) returns
nothing, while filtering on full precision would keep the candidate. -/

def uC3 : UserSkillProfile :=
  { userId := "u1", name := "Ann", email := "ann@x.io", bio := ""
    skills := ["a", "b"], availability := "available" }

theorem vocabC3_eval :
    buildVocabulary (["a"] :: [uC3].map (·.skills)) = ["a", "b"] := by decide

theorem encodeC3_query : encodeVector ["a"] ["a", "b"] = [(1 : ℝ), 0] := by
  have h1 : List.indexOf? (normaliseSkill "a") ["a", "b"] = some 0 := by decide
  unfold encodeVector
  rw [List.foldl_cons, List.foldl_nil, h1]
  norm_num [List.set, List.replicate]

theorem encodeC3_user : encodeVector uC3.skills ["a", "b"] = [(1 : ℝ), 1] := by
  have h1 : List.indexOf? (normaliseSkill "a") ["a", "b"] = some 0 := by decide
  have h2 : List.indexOf? (normaliseSkill "b") ["a", "b"] = some 1 := by decide
  show encodeVector ["a", "b"] ["a", "b"] = [(1 : ℝ), 1]
  unfold encodeVector
  rw [List.foldl_cons, List.foldl_cons, List.foldl_nil, h1, h2]
  norm_num [List.set, List.replicate]

theorem cosC3_eval :
    cosineSimilarity [(1 : ℝ), 0] [(1 : ℝ), 1] = 1 / Real.sqrt 2 := by
  rw [cosineSimilarity_def]
  norm_num [Finset.sum_range_succ, List.getD]

theorem round4_inv_sqrt_two : round4 (1 / Real.sqrt 2) = 7071 / 10000 := by
  unfold round4
  have hs2 : Real.sqrt 2 ^ 2 = 2 := Real.sq_sqrt (by norm_num)
  have hpos : (0 : ℝ) < Real.sqrt 2 := Real.sqrt_pos.mpr (by norm_num)
  have hval : 1 / Real.sqrt 2 * 10000 = 5000 * Real.sqrt 2 := by
    field_simp
    nlinarith [hs2]
  rw [hval]
  have hr : round (5000 * Real.sqrt 2) = 7071 := by
    rw [round_eq]
    have h1 : (7071 : ℝ) ≤ 5000 * Real.sqrt 2 + 1 / 2 := by nlinarith [hs2, hpos.le]
    have h2 : 5000 * Real.sqrt 2 + 1 / 2 < 7072 := by nlinarith [hs2, hpos.le]
    have := Int.floor_eq_iff.mpr ⟨by exact_mod_cast h1, by push_cast; linarith⟩
    exact_mod_cast this
  rw [hr]
  norm_num

/-- C3 counterexample: with query `["a"]`, one candidate with skills
`["a","b"]` and `minScore = 0.707105`, the implementation — which filters on
the rounded similarity `0.7071` — returns no match, while the spec's
full-precision reading (similarity `1/√2 ≈ 0.7071068 ≥ 0.707105`) keeps the
candidate: the filtering decision does not agree with the one made on the
unrounded similarity. -/
theorem C3_counterexample_rounded_filter :
    rankUsersBySkills ["a"] [uC3] 3 (707105 / 1000000) = [] ∧
    rankUsersBySkillsFullPrec ["a"] [uC3] 3 (707105 / 1000000) ≠ [] := by
  have hnq : ["a"].map normaliseSkill = ["a"] := by decide
  have hcosfield :
      (scoreEntry ["a", "b"] (encodeVector ["a"] ["a", "b"]) ["a"]
        uC3).cosineSimilarity = 7071 / 10000 := by
    rw [scoreEntry_cosineSimilarity, encodeC3_query, encodeC3_user, cosC3_eval,
      round4_inv_sqrt_two]
  constructor
  · unfold rankUsersBySkills
    rw [if_neg (by norm_num)]
    unfold scoredMatchesOf
    rw [vocabC3_eval, hnq, List.map_cons, List.map_nil]
    rw [List.filter_cons_of_neg, List.filter_nil]
    · rfl
    · rw [hcosfield]
      simp only [decide_eq_true_eq]
      norm_num
  · unfold rankUsersBySkillsFullPrec
    rw [if_neg (by norm_num)]
    rw [vocabC3_eval, hnq, List.map_cons, List.map_nil, encodeC3_query,
      encodeC3_user, cosC3_eval]
    rw [List.filter_cons_of_pos, List.filter_nil]
    · simp [List.insertionSort, List.orderedInsert]
    · have hs2 : Real.sqrt 2 ^ 2 = 2 := Real.sq_sqrt (by norm_num)
      have hpos : (0 : ℝ) < Real.sqrt 2 := Real.sqrt_pos.mpr (by norm_num)
      simp only [decide_eq_true_eq]
      rw [div_le_div_iff₀ (by norm_num) hpos]
      nlinarith [hs2, hpos.le]

/-! ## C4: the worked example (query ["React","Node.js"]) -/

def u1C4 : UserSkillProfile :=
  { userId := "u1", name := "Dana", email := "d@x.io", bio := ""
    skills := ["React", "TypeScript"], availability := "available" }

def u2C4 : UserSkillProfile :=
  { userId := "u2", name := "Eli", email := "e@x.io", bio := ""
    skills := ["React", "Node.js", "MongoDB"], availability := "available" }

theorem vocabC4_eval :
    buildVocabulary (["React", "Node.js"] :: [u1C4, u2C4].map (·.skills)) =
      ["react", "nodejs", "typescript", "mongodb"] := by decide

theorem nqC4_eval :
    ["React", "Node.js"].map normaliseSkill = ["react", "nodejs"] := by decide

theorem encodeC4_query :
    encodeVector ["React", "Node.js"]
        ["react", "nodejs", "typescript", "mongodb"] = [(1 : ℝ), 1, 0, 0] := by
  have h1 : List.indexOf? (normaliseSkill "React")
      ["react", "nodejs", "typescript", "mongodb"] = some 0 := by decide
  have h2 : List.indexOf? (normaliseSkill "Node.js")
      ["react", "nodejs", "typescript", "mongodb"] = some 1 := by decide
  unfold encodeVector
  rw [List.foldl_cons, List.foldl_cons, List.foldl_nil, h1, h2]
  norm_num [List.set, List.replicate]

theorem encodeC4_u1 :
    encodeVector u1C4.skills ["react", "nodejs", "typescript", "mongodb"] =
      [(1 : ℝ), 0, 1, 0] := by
  have h1 : List.indexOf? (normaliseSkill "React")
      ["react", "nodejs", "typescript", "mongodb"] = some 0 := by decide
  have h2 : List.indexOf? (normaliseSkill "TypeScript")
      ["react", "nodejs", "typescript", "mongodb"] = some 2 := by decide
  show encodeVector ["React", "TypeScript"] _ = _
  unfold encodeVector
  rw [List.foldl_cons, List.foldl_cons, List.foldl_nil, h1, h2]
  norm_num [List.set, List.replicate]

theorem encodeC4_u2 :
    encodeVector u2C4.skills ["react", "nodejs", "typescript", "mongodb"] =
      [(1 : ℝ), 1, 0, 1] := by
  have h1 : List.indexOf? (normaliseSkill "React")
      ["react", "nodejs", "typescript", "mongodb"] = some 0 := by decide
  have h2 : List.indexOf? (normaliseSkill "Node.js")
      ["react", "nodejs", "typescript", "mongodb"] = some 1 := by decide
  have h3 : List.indexOf? (normaliseSkill "MongoDB")
      ["react", "nodejs", "typescript", "mongodb"] = some 3 := by decide
  show encodeVector ["React", "Node.js", "MongoDB"] _ = _
  unfold encodeVector
  rw [List.foldl_cons, List.foldl_cons, List.foldl_cons, List.foldl_nil,
    h1, h2, h3]
  norm_num [List.set, List.replicate]

theorem cosC4_u1 :
    cosineSimilarity [(1 : ℝ), 1, 0, 0] [(1 : ℝ), 0, 1, 0] = 1 / 2 := by
  rw [cosineSimilarity_def]
  norm_num [Finset.sum_range_succ, List.getD, Real.mul_self_sqrt]

theorem cosC4_u2 :
    cosineSimilarity [(1 : ℝ), 1, 0, 0] [(1 : ℝ), 1, 0, 1] =
      2 / (Real.sqrt 2 * Real.sqrt 3) := by
  rw [cosineSimilarity_def]
  norm_num [Finset.sum_range_succ, List.getD]

theorem round4_half : round4 (1 / 2 : ℝ) = 1 / 2 := by
  unfold round4
  norm_num

theorem round4_two_div_sqrt_six :
    round4 (2 / (Real.sqrt 2 * Real.sqrt 3)) = 8165 / 10000 := by
  have h23 : Real.sqrt 2 * Real.sqrt 3 = Real.sqrt 6 := by
    rw [← Real.sqrt_mul (by norm_num : (0 : ℝ) ≤ 2)]
    norm_num
  rw [h23]
  unfold round4
  have hs6 : Real.sqrt 6 ^ 2 = 6 := Real.sq_sqrt (by norm_num)
  have hpos : (0 : ℝ) < Real.sqrt 6 := Real.sqrt_pos.mpr (by norm_num)
  have hval : 2 / Real.sqrt 6 * 10000 = 10000 / 3 * Real.sqrt 6 := by
    field_simp
    nlinarith [hs6]
  rw [hval]
  have hr : round (10000 / 3 * Real.sqrt 6) = 8165 := by
    rw [round_eq]
    have h1 : (8165 : ℝ) ≤ 10000 / 3 * Real.sqrt 6 + 1 / 2 := by
      nlinarith [hs6, hpos.le]
    have h2 : 10000 / 3 * Real.sqrt 6 + 1 / 2 < 8166 := by
      nlinarith [hs6, hpos.le]
    have := Int.floor_eq_iff.mpr ⟨by exact_mod_cast h1, by push_cast; linarith⟩
    exact_mod_cast this
  rw [hr]
  norm_num

theorem cosfieldC4_u1 :
    (scoreEntry ["react", "nodejs", "typescript", "mongodb"]
      [(1 : ℝ), 1, 0, 0] ["react", "nodejs"] u1C4).cosineSimilarity =
        1 / 2 := by
  rw [scoreEntry_cosineSimilarity, encodeC4_u1, cosC4_u1, round4_half]

theorem cosfieldC4_u2 :
    (scoreEntry ["react", "nodejs", "typescript", "mongodb"]
      [(1 : ℝ), 1, 0, 0] ["react", "nodejs"] u2C4).cosineSimilarity =
        8165 / 10000 := by
  rw [scoreEntry_cosineSimilarity, encodeC4_u2, cosC4_u2,
    round4_two_div_sqrt_six]

theorem rankC4_eval :
    rankUsersBySkills ["React", "Node.js"] [u1C4, u2C4] 3 (1 / 10) =
      [scoreEntry ["react", "nodejs", "typescript", "mongodb"]
        [(1 : ℝ), 1, 0, 0] ["react", "nodejs"] u2C4,
       scoreEntry ["react", "nodejs", "typescript", "mongodb"]
        [(1 : ℝ), 1, 0, 0] ["react", "nodejs"] u1C4] := by
  have hnot : ¬rankLe
      (scoreEntry ["react", "nodejs", "typescript", "mongodb"]
        [(1 : ℝ), 1, 0, 0] ["react", "nodejs"] u1C4)
      (scoreEntry ["react", "nodejs", "typescript", "mongodb"]
        [(1 : ℝ), 1, 0, 0] ["react", "nodejs"] u2C4) := by
    unfold rankLe
    rw [cosfieldC4_u1, cosfieldC4_u2]
    push_neg
    refine ⟨by norm_num, fun h => absurd h (by norm_num)⟩
  unfold rankUsersBySkills
  rw [if_neg (by norm_num)]
  unfold scoredMatchesOf
  rw [vocabC4_eval, nqC4_eval, encodeC4_query, List.map_cons, List.map_cons,
    List.map_nil]
  rw [List.filter_cons_of_pos, List.filter_cons_of_pos, List.filter_nil]
  · simp only [List.insertionSort, List.orderedInsert, hnot, if_false]
    simp [List.take]
  · rw [cosfieldC4_u2]
    simp only [decide_eq_true_eq]
    norm_num
  · rw [cosfieldC4_u1]
    simp only [decide_eq_true_eq]
    norm_num

/-- C4 counterexample: on the spec's own example the top-ranked candidate is
indeed the second one (`"u2"`), but its reported cosine similarity is
`0.8165` (= `round4 (2/√6)`), not `1.0`: the candidate's extra `MongoDB`
dimension keeps the vectors from being parallel. -/
theorem C4_counterexample_similarity_not_one :
    ((rankUsersBySkills ["React", "Node.js"] [u1C4, u2C4] 3
        (1 / 10)).head?.map fun m => (m.userId, m.cosineSimilarity)) =
      some ("u2", 8165 / 10000) ∧ (8165 / 10000 : ℝ) ≠ 1 := by
  constructor
  · rw [rankC4_eval]
    rw [List.head?_cons, Option.map_some']
    rw [cosfieldC4_u2]
    rfl
  · norm_num

/-- C4 (amended): for query `["React","Node.js"]` and the example
candidates with `minScore 0.1`, `topN 3`, the second candidate ranks first
with reported similarity `0.8165` (the rounding of `2/(√2·√3) = 2/√6`) and
the first candidate ranks second with similarity exactly `0.5`. -/
theorem C4_example_ranking :
    (rankUsersBySkills ["React", "Node.js"] [u1C4, u2C4] 3 (1 / 10)).map
        (fun m => (m.userId, m.cosineSimilarity)) =
      [("u2", 8165 / 10000), ("u1", (1 : ℝ) / 2)] ∧
    (8165 / 10000 : ℝ) = round4 (2 / (Real.sqrt 2 * Real.sqrt 3)) := by
  constructor
  · rw [rankC4_eval]
    rw [List.map_cons, List.map_cons, List.map_nil]
    rw [cosfieldC4_u2, cosfieldC4_u1]
    rfl
  · rw [round4_two_div_sqrt_six]

/-! ## C5 counterexample: the embedding ranker has no tie-break keys -/

def uAC5 : UserSkillProfile :=
  { userId := "A", name := "Ada", email := "ada@x.io", bio := ""
    skills := ["a"], availability := "available" }

def uBC5 : UserSkillProfile :=
  { userId := "B", name := "Ben", email := "ben@x.io", bio := ""
    skills := ["q"], availability := "available" }

def stEmpty : EmbedState := { cache := [], providerCalls := [] }

/-- A provider that embeds every text as the vector `[1]`. -/
noncomputable def provC5 : String → EmbeddingVector := fun _ => [(1 : ℝ)]

theorem round4_one : round4 (1 : ℝ) = 1 := by
  unfold round4
  norm_num

theorem scoredC5_eval :
    (scoredWithEmbeddings provC5 ["q"] [uAC5, uBC5] stEmpty).1 =
      [embedEntry ["q"] [(1 : ℝ)] uAC5 [(1 : ℝ)],
       embedEntry ["q"] [(1 : ℝ)] uBC5 [(1 : ℝ)]] := rfl

theorem cosC5_entry_A :
    (embedEntry ["q"] [(1 : ℝ)] uAC5 [(1 : ℝ)]).cosineSimilarity = 1 := by
  show round4 (embeddingCosine [(1 : ℝ)] [(1 : ℝ)]) = 1
  rw [embeddingCosine,
    cosineSimilarity_self ⟨1, List.mem_singleton_self _, one_ne_zero⟩,
    round4_one]

theorem cosC5_entry_B :
    (embedEntry ["q"] [(1 : ℝ)] uBC5 [(1 : ℝ)]).cosineSimilarity = 1 := by
  show round4 (embeddingCosine [(1 : ℝ)] [(1 : ℝ)]) = 1
  rw [embeddingCosine,
    cosineSimilarity_self ⟨1, List.mem_singleton_self _, one_ne_zero⟩,
    round4_one]

theorem rankC5_eval :
    (rankUsersWithEmbeddings provC5 ["q"] [uAC5, uBC5] 3 (3 / 10)
        stEmpty).1 =
      [embedEntry ["q"] [(1 : ℝ)] uAC5 [(1 : ℝ)],
       embedEntry ["q"] [(1 : ℝ)] uBC5 [(1 : ℝ)]] := by
  unfold rankUsersWithEmbeddings
  rw [if_neg (by norm_num)]
  show (List.insertionSort embLe
      (((scoredWithEmbeddings provC5 ["q"] [uAC5, uBC5] stEmpty).1).filter
        fun m => decide ((3 : ℝ) / 10 ≤ m.cosineSimilarity))).take 3 = _
  rw [scoredC5_eval]
  rw [List.filter_cons_of_pos, List.filter_cons_of_pos, List.filter_nil]
  · rw [List.insertionSort, List.insertionSort, List.insertionSort,
      List.orderedInsert, List.orderedInsert,
      if_pos (by rw [embLe, cosC5_entry_A, cosC5_entry_B])]
    rfl
  · rw [cosC5_entry_B]
    simp only [decide_eq_true_eq]
    norm_num
  · rw [cosC5_entry_A]
    simp only [decide_eq_true_eq]
    norm_num

/-- C5 counterexample: the embedding ranker's output is not sorted by the
three successive keys.  With a provider that embeds everything as `[1]`,
both candidates tie at (rounded) similarity `1`, and the stable sort keeps
input order `[A, B]` even though `B`'s `matchScore` (1) exceeds `A`'s (0) —
violating the descending `matchScore` tie-break the claim asserts for both
rankers. -/
theorem C5_counterexample_embedding_tie_break :
    ¬ List.Sorted rankLe
        (rankUsersWithEmbeddings provC5 ["q"] [uAC5, uBC5] 3 (3 / 10)
          stEmpty).1 := by
  rw [rankC5_eval]
  intro hsorted
  have hpair := List.rel_of_sorted_cons hsorted _ (List.mem_singleton_self _)
  unfold rankLe at hpair
  rw [cosC5_entry_A, cosC5_entry_B] at hpair
  have hmsA : (embedEntry ["q"] [(1 : ℝ)] uAC5 [(1 : ℝ)]).matchScore = 0 := rfl
  have hmsB : (embedEntry ["q"] [(1 : ℝ)] uBC5 [(1 : ℝ)]).matchScore = 1 := rfl
  rw [hmsA, hmsB] at hpair
  rcases hpair with h | ⟨_, h | ⟨h, _⟩⟩
  · exact lt_irrefl _ h
  · omega
  · omega

/-! ## Storage environment (the MongoDB collaborator)

`User.findById` / `Project.findById` / `User.find` are modelled as lookups
in an explicit environment; `new Date().toISOString()` as the environment's
`now` string.  `Except.error` models a thrown exception. -/

structure StoredUser where
  id : String
  name : String
  email : String
  bio : String
  skills : List String
  availability : String

structure StoredProject where
  id : String
  title : String
  description : String

structure Env where
  users : List StoredUser
  projects : List StoredProject
  now : String

def Env.findUser (env : Env) (uid : String) : Option StoredUser :=
  env.users.find? fun u => u.id == uid

def Env.findProject (env : Env) (pid : String) : Option StoredProject :=
  env.projects.find? fun p => p.id == pid

/-! ## Tool: `match_users_by_skills` (`matchUsersBySkills.ts`)

The `useEmbeddings` branch is gated on `useEmbeddings && OPENAI_API_KEY`;
neither agent ever sets `useEmbeddings`, so the modelled tool is the
always-taken `cosine-binary` branch. -/

structure MatchUsersInput where
  skills : List String
  limit : Option ℕ := none
  excludeUserId : Option String := none
  availabilityFilter : Option String := none

structure MatchUsersOutput where
  «matches» : List ScoredMatch
  searchedSkills : List String
  totalFound : ℕ
  algorithm : String

/-- Case-insensitive substring test: the `$in` entry built from one query
skill is an escaped-literal regex with the `i` flag, unanchored. -/
def containsCI (hay needle : String) : Bool :=
  decide ((needle.data.map Char.toLower) <:+: (hay.data.map Char.toLower))

/-- Stage 1's Mongo pre-filter predicate: any skill of the user matches any
query-skill regex; the requester is excluded; availability honoured. -/
def stageOneMatches (input : MatchUsersInput) (u : StoredUser) : Bool :=
  (u.skills.any fun s => input.skills.any fun q => containsCI s q) &&
  (match input.excludeUserId with
   | some ex => u.id != ex
   | none => true) &&
  (match input.availabilityFilter with
   | some a => u.availability == a
   | none => true)

noncomputable def matchUsersBySkills (env : Env) (input : MatchUsersInput) :
    Except String MatchUsersOutput :=
  if input.skills.length = 0 then
    .error "match_users_by_skills requires at least one skill"
  else
    if ((env.users.filter (stageOneMatches input)).take
        (min ((input.limit.getD 5) * 5) 200)).length = 0 then
      .ok { «matches» := [], searchedSkills := input.skills, totalFound := 0
            algorithm := "cosine-binary" }
    else
      .ok
        { «matches» :=
            rankUsersBySkills input.skills
              (((env.users.filter (stageOneMatches input)).take
                  (min ((input.limit.getD 5) * 5) 200)).map fun u =>
                { userId := u.id, name := u.name, email := u.email
                  bio := u.bio, skills := u.skills
                  availability := u.availability })
              (input.limit.getD 5) (1 / 10)
          searchedSkills := input.skills
          totalFound :=
            (rankUsersBySkills input.skills
              (((env.users.filter (stageOneMatches input)).take
                  (min ((input.limit.getD 5) * 5) 200)).map fun u =>
                { userId := u.id, name := u.name, email := u.email
                  bio := u.bio, skills := u.skills
                  availability := u.availability })
              (input.limit.getD 5) (1 / 10)).length
          algorithm := "cosine-binary" }

/-! ## Tool: `draft_intro_message` (`draftIntroMessage.ts`) -/

structure DraftIntroInput where
  fromUserId : String
  toUserId : String
  projectId : Option String := none
  customNote : Option String := none

structure DraftIntroOutput where
  subject : String
  body : String
  recipientId : String
  recipientName : String
  senderName : String
  projectTitle : Option String
  generatedAt : String

/-- `s.slice(0, n)` on characters. -/
def strTake (s : String) (n : ℕ) : String := String.mk (s.data.take n)

/-- `s.trim()`. -/
def strTrim (s : String) : String := String.mk (trimWs s.data)

def draftIntroMessage (env : Env) (input : DraftIntroInput) :
    Except String DraftIntroOutput :=
  if input.fromUserId = "" ∨ input.toUserId = "" then
    .error "draft_intro_message requires fromUserId and toUserId"
  else
    match env.findUser input.fromUserId, env.findUser input.toUserId with
    | none, _ => .error ("Sender user (" ++ input.fromUserId ++ ") not found")
    | some _, none =>
      .error ("Recipient user (" ++ input.toUserId ++ ") not found")
    | some sender, some recipient =>
      -- `if (project) { ... }`: an unresolved projectId is silently skipped
      let project := input.projectId.bind env.findProject
      let projectTitle := project.map (·.title)
      let subject :=
        match projectTitle with
        | some t => "Collaboration Invitation: \"" ++ t ++ "\" — TeamForge"
        | none =>
          "Team Collaboration Invitation from " ++ sender.name ++ " — TeamForge"
      let senderSkillsStr :=
        if sender.skills.length > 0 then
          String.intercalate ", " (sender.skills.take 5)
        else "various skills"
      let projectCtx :=
        match projectTitle with
        | some t =>
          "I\x27m building a project called **\"" ++ t ++ "\"**" ++
            (match project.map (·.description) with
             | some d => if d ≠ "" then " — " ++ strTake d 100 ++ "..." else ""
             | none => "") ++ " "
        | none => ""
      let customCtx :=
        match input.customNote with
        | some note => if note ≠ "" then "\n\n" ++ note else ""
        | none => ""
      let body :=
        "Hi " ++ recipient.name ++ ",\n\n" ++
        "My name is " ++ sender.name ++
        " and I found your profile on TeamForge. " ++ projectCtx ++
        "I noticed your skills align well with what we\x27re looking for, " ++
        "and I\x27d love to explore the possibility of collaborating.\n\n" ++
        "A bit about me: I bring expertise in " ++ senderSkillsStr ++ ". " ++
        (if sender.bio ≠ "" then "\n\n" ++ sender.bio else "") ++ customCtx ++
        "\n\n" ++
        "I believe your background could be a great addition to our team. " ++
        "Would you be open to a quick chat to discuss further?\n\n" ++
        "Looking forward to hearing from you!\n\n" ++
        "Best regards,\n" ++ sender.name ++ "\n\n—\n" ++
        "Sent via TeamForge AI Assistant"
      .ok
        { subject := subject
          body := strTrim body
          recipientId := input.toUserId
          recipientName := recipient.name
          senderName := sender.name
          projectTitle := projectTitle
          generatedAt := env.now }

/-! ## Bounded agent (`boundedAgent.ts`) -/

def MAX_TOOL_CALLS : ℕ := 2

def capMessage : String :=
  "[BoundedAgent] Tool call limit exceeded. Max allowed: 2. " ++
  "This agent is intentionally bounded to ensure predictable behavior."

structure AgentInput where
  message : String
  userId : String
  projectId : Option String := none
  approvedMessageTo : Option String := none

inductive BAToolInput where
  | matchIn (i : MatchUsersInput)
  | draftIn (i : DraftIntroInput)

inductive BAToolOutput where
  | matchOut (o : MatchUsersOutput)
  | draftOut (d : DraftIntroOutput)

structure ToolCallRecord where
  tool : String
  input : BAToolInput
  output : BAToolOutput
  executedAt : String

structure BAState where
  toolCallsMade : ℕ
  toolCallLog : List ToolCallRecord

structure AgentOutput where
  success : Bool
  reasoning : String
  toolCallsMade : ℕ
  «matches» : Option (List ScoredMatch) := none
  draftMessage : Option DraftIntroOutput := none
  awaitingApproval : Bool
  approvalPrompt : Option String := none
  toolCallLog : List ToolCallRecord
  error : Option String := none

def KNOWN_SKILLS : List String :=
  ["react", "react native", "node", "nodejs", "express", "typescript",
   "javascript", "python", "django", "flask", "fastapi", "mongodb",
   "postgresql", "mysql", "redis", "docker", "kubernetes", "aws", "gcp",
   "azure", "graphql", "rest", "figma", "flutter", "swift", "kotlin",
   "java", "c++", "rust", "go", "vue", "angular", "svelte", "next",
   "nextjs", "tailwind", "css", "html", "ui", "ux", "devops",
   "machine learning", "ml", "ai", "data science", "tensorflow", "pytorch"]

/-- `message.toLowerCase()`. -/
def lowerStr (s : String) : String := String.mk (s.data.map Char.toLower)

/-- `lower.includes(skill)` — substring test. -/
def includesSub (hay needle : String) : Bool :=
  decide (needle.data <:+: hay.data)

def extractSkillsFromMessage (message : String) : List String :=
  KNOWN_SKILLS.filter fun skill => includesSub (lowerStr message) skill

def buildReasoning (message : String) (skillsFound : List String) : String :=
  if skillsFound.length = 0 then
    "I analyzed your request: \"" ++ message ++
      "\". I couldn\x27t detect specific skills to search for. " ++
      "Please mention skills like \"React developer\" or \"Python engineer\"."
  else
    "I analyzed your request and identified these skills to match: [" ++
      String.intercalate ", " skillsFound ++
      "]. I will now search our user database for people with these " ++
      "skills, ranked by how many of the requested skills they possess."

/-- `executeToolCall`: the hard cap is checked before dispatch; the counter
is incremented before the tool runs (a JS closure mutation, so it survives a
thrown tool error), and the log is appended only on success.  The
`tool`-string switch dispatches; a name/payload mismatch cannot arise in the
callers (TypeScript casts) and falls into the unknown-tool error. -/
noncomputable def dispatchBATool (env : Env) (tool : String)
    (toolInput : BAToolInput) : Except String BAToolOutput :=
  match tool, toolInput with
  | "match_users_by_skills", .matchIn i =>
    (matchUsersBySkills env i).map BAToolOutput.matchOut
  | "draft_intro_message", .draftIn i =>
    (draftIntroMessage env i).map BAToolOutput.draftOut
  | _, _ => .error ("[BoundedAgent] Unknown tool: " ++ tool)

noncomputable def executeToolCall (env : Env) (tool : String)
    (toolInput : BAToolInput) (st : BAState) :
    BAState × Except String BAToolOutput :=
  if MAX_TOOL_CALLS ≤ st.toolCallsMade then
    (st, .error capMessage)
  else
    match dispatchBATool env tool toolInput with
    | .error e => (⟨st.toolCallsMade + 1, st.toolCallLog⟩, .error e)
    | .ok out =>
      (⟨st.toolCallsMade + 1,
        st.toolCallLog ++ [⟨tool, toolInput, out, env.now⟩]⟩, .ok out)

def approvalPromptFor (extractedSkills : List String)
    (mo : MatchUsersOutput) : String :=
  match mo.«matches» with
  | topMatch :: _ =>
    "I found " ++ toString mo.«matches».length ++ " candidate(s) for [" ++
      String.intercalate ", " extractedSkills ++ "]. The best match is **" ++
      topMatch.name ++ "** (matched " ++ toString topMatch.matchScore ++
      " skill(s): " ++ String.intercalate ", " topMatch.matchedSkills ++
      "). Would you like me to draft an introduction message to " ++
      topMatch.name ++ "? (Reply with their userId to approve)"
  | [] => ""

def errorOutput (reasoning : String) (st : BAState) (e : String) :
    AgentOutput :=
  { success := false
    reasoning := reasoning
    toolCallsMade := st.toolCallsMade
    awaitingApproval := false
    toolCallLog := st.toolCallLog
    error := some e }

noncomputable def runBoundedAgent (env : Env) (input : AgentInput) :
    AgentOutput :=
  match input.approvedMessageTo with
  | some approved =>
    -- Path A: caller-approved recipient → draft directly as tool call #1
    match
      executeToolCall env "draft_intro_message"
        (.draftIn { fromUserId := input.userId, toUserId := approved
                    projectId := input.projectId }) ⟨0, []⟩
    with
    | (st, .ok (.draftOut d)) =>
      { success := true
        reasoning :=
          "You approved sending an introduction to this user. I will now " ++
          "draft a professional intro message on your behalf for project context."
        toolCallsMade := st.toolCallsMade
        draftMessage := some d
        awaitingApproval := false
        toolCallLog := st.toolCallLog }
    | (st, .ok (.matchOut _)) =>
      -- unreachable: the draft tool never returns a match payload
      errorOutput "An error occurred during agent execution." st
        "unexpected tool output"
    | (st, .error e) =>
      errorOutput "An error occurred during agent execution." st e
  | none =>
    -- Path B: extraction (not a tool call), then matching as tool call #1
    if (extractSkillsFromMessage input.message).length = 0 then
      { success := false
        reasoning := buildReasoning input.message
          (extractSkillsFromMessage input.message)
        toolCallsMade := 0
        awaitingApproval := false
        toolCallLog := []
        error := some "No recognizable skills found in your message." }
    else
      match
        executeToolCall env "match_users_by_skills"
          (.matchIn { skills := extractSkillsFromMessage input.message
                      limit := some 5
                      excludeUserId := some input.userId }) ⟨0, []⟩
      with
      | (st, .ok (.matchOut mo)) =>
        if mo.«matches».length = 0 then
          { success := true
            reasoning := buildReasoning input.message
                (extractSkillsFromMessage input.message) ++
              " However, no users were found matching these skills."
            toolCallsMade := st.toolCallsMade
            «matches» := some []
            awaitingApproval := false
            toolCallLog := st.toolCallLog }
        else
          { success := true
            reasoning := buildReasoning input.message
              (extractSkillsFromMessage input.message)
            toolCallsMade := st.toolCallsMade
            «matches» := some mo.«matches»
            draftMessage := none
            awaitingApproval := true
            approvalPrompt := some
              (approvalPromptFor (extractSkillsFromMessage input.message) mo)
            toolCallLog := st.toolCallLog }
      | (st, .ok (.draftOut _)) =>
        -- unreachable: the match tool never returns a draft payload
        errorOutput "An error occurred during agent execution." st
          "unexpected tool output"
      | (st, .error e) =>
        errorOutput "An error occurred during agent execution." st e

/-- The confirmed-match ids accumulated in a tool-call log: the union of the
`userId`s of every `match_users_by_skills` result recorded in it. -/
def confirmedIdsOfLog (log : List ToolCallRecord) : List String :=
  log.foldl
    (fun acc rc =>
      match rc.output with
      | .matchOut o => acc ++ o.«matches».map (·.userId)
      | .draftOut _ => acc) []

/-! ## LLM-driven agent (`openaiAgent.ts`)

The model is an external collaborator: each turn's completion is supplied
by an arbitrary function `llm` of the conversation so far, and the final
summary completion by an arbitrary `summarize` (whose `none` result models
malformed JSON degrading to `{}` via `safeParseJSON`).  Tool-call arguments
arrive pre-parsed as `Option ToolArgs` — `none` models malformed JSON,
which `safeParseJSON` degrades to the empty object (all fields absent).
The JSON strings pushed into the conversation are modelled by carrying the
payloads themselves. -/

structure ToolArgs where
  skills : Option (List String) := none
  limit : Option ℕ := none
  availability_filter : Option String := none
  to_user_id : Option String := none
  project_id : Option String := none
  custom_note : Option String := none

inductive ToolCallReq where
  /-- a `type: 'function'` tool call -/
  | function (id : String) (name : String) (argsRaw : Option ToolArgs)
  /-- any non-function tool-call type: skipped, never dispatched -/
  | custom (id : String)

structure AssistantMsg where
  content : Option String := none
  tool_calls : List ToolCallReq := []

inductive ToolResult where
  | matched (o : MatchUsersOutput)
  | drafted (d : DraftIntroOutput)

inductive ChatMsg where
  | system (content : String)
  | user (content : String)
  | assistant (m : AssistantMsg)
  | tool (tool_call_id : String) (payload : Except String ToolResult)

structure AgentRequest where
  message : String
  userId : String
  projectId : Option String := none

structure AgentResponse where
  success : Bool
  reasoning : String
  toolCallsMade : ℕ
  «matches» : Option (List ScoredMatch)
  draftMessage : Option DraftIntroOutput
  awaitingApproval : Bool
  approvalPrompt : Option String
  error : Option String

/-- The shape `safeParseJSON<Partial<AgentResponse>>` can recover from the
summary completion. -/
structure PartialResponse where
  reasoning : Option String := none
  awaitingApproval : Option Bool := none
  approvalPrompt : Option String := none

def VALID_AVAILABILITY : List String := ["available", "busy", "part-time"]

def toAvailabilityFilter (raw : Option String) : Option String :=
  match raw with
  | some s => if VALID_AVAILABILITY.contains s then some s else none
  | none => none

/-- Anti-hallucination check: the target id appears among the matches
returned by `match_users_by_skills` this run. -/
def validateRecipientId (toUserId : String)
    (confirmedMatches : List ScoredMatch) : Bool :=
  confirmedMatches.any fun u => u.userId == toUserId

def guardViolationMsg (toUserId : String) : String :=
  "draft_intro_message: to_user_id \"" ++ toUserId ++
  "\" was not returned by match_users_by_skills. " ++
  "Cannot draft a message to an unverified user."

structure DispatchCtx where
  userId : String
  projectId : Option String := none
  confirmedMatches : List ScoredMatch

/-- `dispatchTool`: the outer `Except.error` is a thrown exception
(propagating to the loop's catch); the inner `Except.error` is the returned
`{ error }` object that is fed back into the conversation. -/
noncomputable def dispatchTool (env : Env) (toolName : String)
    (args : ToolArgs) (ctx : DispatchCtx) :
    Except String (Except String ToolResult) :=
  if toolName = "match_users_by_skills" then
    match args.skills with
    | none =>
      .ok (.error "match_users_by_skills: skills must be a non-empty array")
    | some [] =>
      .ok (.error "match_users_by_skills: skills must be a non-empty array")
    | some ss =>
      match
        matchUsersBySkills env
          { skills := ss
            limit := some (args.limit.getD 5)
            availabilityFilter := toAvailabilityFilter args.availability_filter
            excludeUserId := some ctx.userId }
      with
      | .error e => .error e
      | .ok o => .ok (.ok (.matched o))
  else if toolName = "draft_intro_message" then
    match args.to_user_id with
    | none =>
      -- `undefined` fails the array lookup; the error interpolates it
      .ok (.error (guardViolationMsg "undefined"))
    | some t =>
      if validateRecipientId t ctx.confirmedMatches = false then
        .ok (.error (guardViolationMsg t))
      else
        match
          draftIntroMessage env
            { fromUserId := ctx.userId
              toUserId := t
              projectId := args.project_id.or ctx.projectId
              customNote := args.custom_note }
        with
        | .error e => .error e
        | .ok d => .ok (.ok (.drafted d))
  else
    .ok (.error ("Unknown tool: " ++ toolName))

structure OAState where
  toolCallsMade : ℕ
  confirmedMatches : List ScoredMatch
  draftMessage : Option DraftIntroOutput
  finalMatches : Option (List ScoredMatch)
  messages : List ChatMsg

def capToolMsg : String :=
  "[BoundedAgent] Tool call limit of 2 reached. " ++
  "No further tool calls permitted this turn."

/-- The state update after a successful dispatch: count the call, capture
verified matches (anti-hallucination) or the draft, and record the tool
message. -/
def applyToolResult (name : String) (id : String) (r : ToolResult)
    (s : OAState) : OAState :=
  { s with
    toolCallsMade := s.toolCallsMade + 1
    confirmedMatches :=
      if name = "match_users_by_skills" then
        match r with
        | .matched o => s.confirmedMatches ++ o.«matches»
        | .drafted _ => s.confirmedMatches
      else s.confirmedMatches
    finalMatches :=
      if name = "match_users_by_skills" then
        match r with
        | .matched o => some o.«matches»
        | .drafted _ => s.finalMatches
      else s.finalMatches
    draftMessage :=
      if name = "draft_intro_message" then
        match r with
        | .drafted d => some d
        | .matched _ => s.draftMessage
      else s.draftMessage
    messages := s.messages ++ [.tool id (.ok r)] }

/-- The inner `for (const toolCall of assistantMessage.tool_calls)` loop.
The second component carries a thrown exception (with the state the JS
closure variables hold at that point). -/
noncomputable def processToolCalls (env : Env) (req : AgentRequest) :
    List ToolCallReq → OAState → OAState × Option String
  | [], s => (s, none)
  | tc :: rest, s =>
    match tc with
    | .custom _ => processToolCalls env req rest s
    | .function id name argsRaw =>
      if MAX_TOOL_CALLS ≤ s.toolCallsMade then
        ({ s with messages := s.messages ++ [.tool id (.error capToolMsg)] },
          none)
      else
        match dispatchTool env name (argsRaw.getD {})
          ⟨req.userId, req.projectId, s.confirmedMatches⟩ with
        | .error e => (s, some e)
        | .ok inner =>
          match inner with
          | .error e =>
            processToolCalls env req rest
              { s with toolCallsMade := s.toolCallsMade + 1
                       messages := s.messages ++ [.tool id (.error e)] }
          | .ok r => processToolCalls env req rest (applyToolResult name id r s)

/-- The `for (let turn = 0; turn < 2; turn++)` loop, fuel = remaining
turns. -/
noncomputable def agentTurns (env : Env) (req : AgentRequest)
    (llm : List ChatMsg → AssistantMsg) :
    ℕ → OAState → OAState × Option String
  | 0, s => (s, none)
  | fuel + 1, s =>
    if MAX_TOOL_CALLS ≤ s.toolCallsMade then (s, none)
    else
      match
        processToolCalls env req (llm s.messages).tool_calls
          { s with messages := s.messages ++ [.assistant (llm s.messages)] }
      with
      | (s2, some e) => (s2, some e)
      | (s2, none) =>
        if (llm s.messages).tool_calls.length = 0 then (s2, none)
        else agentTurns env req llm fuel s2

/-- The `systemPrompt.ts` text (abridged here: its content reaches only the
`llm` collaborator, over which every theorem quantifies). -/
def SYSTEM_PROMPT : String := "You are the TeamForge AI Assistant."

def summaryPromptText : String :=
  "Now produce the final AgentResponse JSON. " ++
  "Set awaitingApproval=true if matches were found but no draft was " ++
  "produced yet. Include an approvalPrompt asking the user which user " ++
  "they want to message."

def initialOAState (req : AgentRequest) : OAState :=
  { toolCallsMade := 0
    confirmedMatches := []
    draftMessage := none
    finalMatches := none
    messages := [.system SYSTEM_PROMPT, .user req.message] }

/-- `runOpenAIAgent` past the API-key check (`getOpenAIClient` throws before
the `try` when the key is missing; `runOpenAIAgent` below adds that). -/
noncomputable def runOpenAIAgentCore (env : Env) (req : AgentRequest)
    (llm : List ChatMsg → AssistantMsg)
    (summarize : List ChatMsg → Option PartialResponse) : AgentResponse :=
  match agentTurns env req llm 2 (initialOAState req) with
  | (s, some e) =>
    { success := false
      reasoning := "An error occurred during agent execution."
      toolCallsMade := s.toolCallsMade
      «matches» := s.finalMatches
      draftMessage := none
      awaitingApproval := false
      approvalPrompt := none
      error := some e }
  | (s, none) =>
    { success := true
      reasoning :=
        ((summarize (s.messages ++ [.user summaryPromptText])).getD
          {}).reasoning.getD "Agent completed."
      toolCallsMade := s.toolCallsMade
      «matches» := s.finalMatches
      draftMessage := s.draftMessage
      awaitingApproval :=
        ((summarize (s.messages ++ [.user summaryPromptText])).getD
          {}).awaitingApproval.getD false
      approvalPrompt :=
        ((summarize (s.messages ++ [.user summaryPromptText])).getD
          {}).approvalPrompt
      error := none }

noncomputable def runOpenAIAgent (env : Env) (hasApiKey : Bool)
    (req : AgentRequest) (llm : List ChatMsg → AssistantMsg)
    (summarize : List ChatMsg → Option PartialResponse) :
    Except String AgentResponse :=
  if hasApiKey then .ok (runOpenAIAgentCore env req llm summarize)
  else .error "OPENAI_API_KEY is not set in environment variables."

/-! ## C8: error handling in the Intro Drafter -/

theorem draftIntroMessage_recipientId {env : Env} {i : DraftIntroInput}
    {d : DraftIntroOutput} (h : draftIntroMessage env i = .ok d) :
    d.recipientId = i.toUserId := by
  unfold draftIntroMessage at h
  split at h
  · simp at h
  · split at h
    · simp at h
    · simp at h
    · rw [Except.ok.injEq] at h
      subst h
      rfl

/-- C8 (amended): with non-empty ids, `draftIntroMessage` fails
(`NotFoundError`) exactly when the sender or the recipient id does not
resolve via storage; an unresolvable `projectId` does **not** fail — when
both users resolve, a draft is produced (addressed to `toUserId`) whether or
not the project resolves. -/
theorem C8_draft_not_found_behaviour (env : Env) (i : DraftIntroInput)
    (hfrom : i.fromUserId ≠ "") (hto : i.toUserId ≠ "") :
    ((env.findUser i.fromUserId = none ∨ env.findUser i.toUserId = none) →
      ∃ msg, draftIntroMessage env i = .error msg) ∧
    ((env.findUser i.fromUserId).isSome → (env.findUser i.toUserId).isSome →
      ∃ d, draftIntroMessage env i = .ok d ∧ d.recipientId = i.toUserId) := by
  constructor
  · intro hmiss
    unfold draftIntroMessage
    rw [if_neg (by tauto)]
    rcases hfe : env.findUser i.fromUserId with _ | sender
    · exact ⟨_, rfl⟩
    · rcases hte : env.findUser i.toUserId with _ | recipient
      · exact ⟨_, rfl⟩
      · rcases hmiss with hmiss | hmiss
        · rw [hfe] at hmiss; simp at hmiss
        · rw [hte] at hmiss; simp at hmiss
  · intro hf ht
    rcases hfe : env.findUser i.fromUserId with _ | sender
    · rw [hfe] at hf; simp at hf
    · rcases hte : env.findUser i.toUserId with _ | recipient
      · rw [hte] at ht; simp at ht
      · have hok : ∃ d, draftIntroMessage env i = .ok d := by
          unfold draftIntroMessage
          rw [if_neg (by tauto), hfe, hte]
          exact ⟨_, rfl⟩
        obtain ⟨d, hd⟩ := hok
        exact ⟨d, hd, draftIntroMessage_recipientId hd⟩

def envC8 : Env :=
  { users :=
      [{ id := "u1", name := "Ann", email := "ann@x.io", bio := "loves rust"
         skills := ["rust", "go"], availability := "available" },
       { id := "u2", name := "Bob", email := "bob@x.io", bio := ""
         skills := ["python"], availability := "busy" }]
    projects := []
    now := "2024-01-01T00:00:00.000Z" }

def inpC8 : DraftIntroInput :=
  { fromUserId := "u1", toUserId := "u2", projectId := some "p9" }

/-- C8 counterexample: drafting with a `projectId` that resolves to no
project does **not** surface an error — in `envC8` there is no project
`"p9"`, yet the draft succeeds, merely without a project title. -/
theorem C8_counterexample_unresolved_project :
    (draftIntroMessage envC8 inpC8).isOk = true ∧
    (draftIntroMessage envC8 inpC8).toOption.map (·.projectTitle) =
      some none := by
  constructor
  · rfl
  · rfl

/-- C8 witness: the amended behaviour at concrete inputs — an unresolvable
recipient id `"zz"` in `envC8` makes the drafter fail. -/
theorem C8_draft_not_found_witness :
    ∃ msg,
      draftIntroMessage envC8
        { fromUserId := "u1", toUserId := "zz" } = .error msg :=
  (C8_draft_not_found_behaviour envC8
      { fromUserId := "u1", toUserId := "zz" }
      (by decide) (by decide)).1 (Or.inr rfl)

/-! ## C1: the anti-hallucination guard -/

theorem dispatchTool_guard_rejects (env : Env) (args : ToolArgs)
    (ctx : DispatchCtx) (t : String) (ht : args.to_user_id = some t)
    (hv : validateRecipientId t ctx.confirmedMatches = false) :
    dispatchTool env "draft_intro_message" args ctx =
      .ok (.error (guardViolationMsg t)) := by
  unfold dispatchTool
  rw [if_neg (by decide), if_pos rfl, ht]
  show (if validateRecipientId t ctx.confirmedMatches = false then _ else _) = _
  rw [if_pos hv]

theorem dispatchTool_drafted_validated {env : Env} {name : String}
    {args : ToolArgs} {ctx : DispatchCtx} {d : DraftIntroOutput}
    (h : dispatchTool env name args ctx = .ok (.ok (.drafted d))) :
    validateRecipientId d.recipientId ctx.confirmedMatches = true := by
  unfold dispatchTool at h
  split at h
  · split at h
    · simp at h
    · simp at h
    · split at h
      · simp at h
      · simp at h
  · split at h
    · split at h
      · simp at h
      · rename_i t _
        split at h
        · simp at h
        · split at h
          · simp at h
          · rename_i hv _ d0 hd0
            rw [Except.ok.injEq, Except.ok.injEq, ToolResult.drafted.injEq] at h
            subst h
            rw [draftIntroMessage_recipientId hd0]
            exact Bool.not_eq_false _ |>.mp hv
    · simp at h

def guardInv (s : OAState) : Prop :=
  ∀ d, s.draftMessage = some d →
    validateRecipientId d.recipientId s.confirmedMatches = true

theorem validateRecipientId_append {t : String} {l m : List ScoredMatch}
    (h : validateRecipientId t l = true) :
    validateRecipientId t (l ++ m) = true := by
  unfold validateRecipientId at *
  rw [List.any_append, h, Bool.true_or]

theorem applyToolResult_guardInv {env : Env} {name id : String}
    {args : ToolArgs} {ctx : DispatchCtx} {r : ToolResult} {s : OAState}
    (hs : guardInv s)
    (hdisp : dispatchTool env name args ctx = .ok (.ok r))
    (hctx : ctx.confirmedMatches = s.confirmedMatches) :
    guardInv (applyToolResult name id r s) := by
  intro d hd
  unfold applyToolResult at hd ⊢
  simp only at hd ⊢
  by_cases hm : name = "match_users_by_skills"
  · have hne : name ≠ "draft_intro_message" := by rw [hm]; decide
    rw [if_neg hne] at hd
    rw [if_pos hm]
    cases r with
    | matched o => exact validateRecipientId_append (hs d hd)
    | drafted d0 => exact hs d hd
  · rw [if_neg hm]
    by_cases hdft : name = "draft_intro_message"
    · rw [if_pos hdft] at hd
      cases r with
      | matched o => exact hs d hd
      | drafted d0 =>
        rw [Option.some.injEq] at hd
        subst hd
        subst hdft
        rw [← hctx]
        exact dispatchTool_drafted_validated hdisp
    · rw [if_neg hdft] at hd
      exact hs d hd

theorem processToolCalls_inv (env : Env) (req : AgentRequest) :
    ∀ (calls : List ToolCallReq) (s : OAState), guardInv s →
      guardInv (processToolCalls env req calls s).1 := by
  intro calls
  induction calls with
  | nil => intro s hs; exact hs
  | cons tc rest ih =>
    intro s hs
    cases tc with
    | custom id => exact ih s hs
    | function id name argsRaw =>
      rw [processToolCalls]
      split
      · exact hs
      · split
        · exact hs
        · rename_i inner hdisp
          split
          · exact ih _ hs
          · rename_i hr
            exact ih _ (applyToolResult_guardInv hs hdisp rfl)

theorem agentTurns_inv (env : Env) (req : AgentRequest)
    (llm : List ChatMsg → AssistantMsg) :
    ∀ (fuel : ℕ) (s : OAState), guardInv s →
      guardInv (agentTurns env req llm fuel s).1 := by
  intro fuel
  induction fuel with
  | zero => intro s hs; exact hs
  | succ n ih =>
    intro s hs
    rw [agentTurns]
    split
    · exact hs
    · have hinv :
          guardInv (processToolCalls env req (llm s.messages).tool_calls
            { s with messages := s.messages ++ [.assistant (llm s.messages)] }).1 :=
        processToolCalls_inv env req _ _ hs
      split
      · rename_i s2 e heq
        rw [heq] at hinv
        exact hinv
      · rename_i s2 heq
        rw [heq] at hinv
        split
        · exact hinv
        · exact ih s2 hinv

/-- C1 (amended): in the LLM-driven agent the anti-hallucination guard is
enforced at dispatch time — a `draft_intro_message` call whose target is
not among the matches accumulated from `match_users_by_skills` in the same
run fails with the guard-violation error and produces no draft, and any
draft held by the loop state (or returned by the agent) is addressed to an
id in that run's accumulated confirmed matches.  The bounded agent's
approved-recipient path, by contrast, drafts to the caller-supplied id
without consulting any confirmed-match set (see the counterexample). -/
theorem C1_draft_recipient_guard :
    (∀ (env : Env) (req : AgentRequest) (llm : List ChatMsg → AssistantMsg),
      ((agentTurns env req llm 2 (initialOAState req)).1.draftMessage.all
        fun d => validateRecipientId d.recipientId
          (agentTurns env req llm 2 (initialOAState req)).1.confirmedMatches)
        = true) ∧
    (∀ (env : Env) (req : AgentRequest) (llm : List ChatMsg → AssistantMsg)
        (summarize : List ChatMsg → Option PartialResponse),
      ((runOpenAIAgentCore env req llm summarize).draftMessage.all
        fun d => validateRecipientId d.recipientId
          (agentTurns env req llm 2 (initialOAState req)).1.confirmedMatches)
        = true) ∧
    (∀ (env : Env) (args : ToolArgs) (ctx : DispatchCtx) (t : String),
      args.to_user_id = some t →
      validateRecipientId t ctx.confirmedMatches = false →
      dispatchTool env "draft_intro_message" args ctx =
        .ok (.error (guardViolationMsg t))) := by
  have hloop : ∀ (env : Env) (req : AgentRequest)
      (llm : List ChatMsg → AssistantMsg),
      ((agentTurns env req llm 2 (initialOAState req)).1.draftMessage.all
        fun d => validateRecipientId d.recipientId
          (agentTurns env req llm 2 (initialOAState req)).1.confirmedMatches)
        = true := by
    intro env req llm
    have hinv := agentTurns_inv env req llm 2 (initialOAState req)
      (fun d hd => by simp [initialOAState] at hd)
    cases hdm : (agentTurns env req llm 2 (initialOAState req)).1.draftMessage
      with
    | none => rfl
    | some d => simpa [Option.all] using hinv d hdm
  refine ⟨hloop, ?_, dispatchTool_guard_rejects⟩
  intro env req llm summarize
  unfold runOpenAIAgentCore
  split
  · rfl
  · rename_i s heq
    have := hloop env req llm
    simp only [heq] at this ⊢
    simpa using this

/-! C1 counterexample: the bounded agent's approved-recipient path. -/

def envC1 : Env :=
  { users :=
      [{ id := "u1", name := "Ann", email := "ann@x.io", bio := ""
         skills := ["react"], availability := "available" },
       { id := "u2", name := "Bob", email := "bob@x.io", bio := ""
         skills := ["python"], availability := "available" }]
    projects := []
    now := "2024-01-01T00:00:00.000Z" }

def inC1 : AgentInput :=
  { message := "hello", userId := "u1", approvedMessageTo := some "u2" }

/-- C1 counterexample: invoking the bounded agent with
`approvedMessageTo = "u2"` produces a draft addressed to `"u2"` even though
no `match_users_by_skills` call was made in that `AgentState` lifetime —
the accumulated confirmed-match id set of the invocation's tool-call log is
empty, and no `GuardViolation` occurs. -/
theorem C1_counterexample_bounded_unguarded :
    ((runBoundedAgent envC1 inC1).draftMessage.map (·.recipientId)) =
        some "u2" ∧
    confirmedIdsOfLog (runBoundedAgent envC1 inC1).toolCallLog = [] ∧
    (runBoundedAgent envC1 inC1).error = none := by
  refine ⟨rfl, rfl, rfl⟩

/-- C1 witness: the guard conjunct at a concrete dispatch — with an empty
confirmed-match set, drafting to `"zz"` is rejected with the guard error. -/
theorem C1_guard_witness :
    dispatchTool envC1 "draft_intro_message"
        { to_user_id := some "zz" } ⟨"u1", none, []⟩ =
      .ok (.error (guardViolationMsg "zz")) :=
  C1_draft_recipient_guard.2.2 envC1 { to_user_id := some "zz" }
    ⟨"u1", none, []⟩ "zz" rfl rfl

/-! ## C2: the hard tool-call cap -/

theorem executeToolCall_cap (env : Env) (tool : String) (ti : BAToolInput)
    (log : List ToolCallRecord) (k : ℕ) :
    executeToolCall env tool ti ⟨2 + k, log⟩ =
      (⟨2 + k, log⟩, .error capMessage) := by
  unfold executeToolCall
  split
  · rfl
  · rename_i h
    exact absurd (Nat.le_add_right 2 k) h

theorem executeToolCall_from_zero (env : Env) (tool : String)
    (ti : BAToolInput) :
    (executeToolCall env tool ti ⟨0, []⟩).1.toolCallsMade ≤ 2 ∧
    (executeToolCall env tool ti ⟨0, []⟩).1.toolCallLog.length ≤ 2 := by
  unfold executeToolCall
  rw [if_neg (by decide)]
  split
  · exact ⟨by norm_num, by norm_num⟩
  · exact ⟨by norm_num, by norm_num⟩

theorem runBoundedAgent_cap (env : Env) (input : AgentInput) :
    (runBoundedAgent env input).toolCallsMade ≤ 2 ∧
    (runBoundedAgent env input).toolCallLog.length ≤ 2 := by
  unfold runBoundedAgent
  split
  · rename_i ex happ
    split <;> rename_i heq <;>
      · have h := executeToolCall_from_zero env "draft_intro_message"
          (.draftIn { fromUserId := input.userId, toUserId := ex
                      projectId := input.projectId })
        rw [heq] at h
        exact h
  · split
    · exact ⟨by norm_num, by norm_num⟩
    · split <;> rename_i heq
      · split
        · have h := executeToolCall_from_zero env "match_users_by_skills"
            (.matchIn { skills := extractSkillsFromMessage input.message
                        limit := some 5
                        excludeUserId := some input.userId })
          rw [heq] at h
          exact h
        · have h := executeToolCall_from_zero env "match_users_by_skills"
            (.matchIn { skills := extractSkillsFromMessage input.message
                        limit := some 5
                        excludeUserId := some input.userId })
          rw [heq] at h
          exact h
      · have h := executeToolCall_from_zero env "match_users_by_skills"
          (.matchIn { skills := extractSkillsFromMessage input.message
                      limit := some 5
                      excludeUserId := some input.userId })
        rw [heq] at h
        exact h
      · have h := executeToolCall_from_zero env "match_users_by_skills"
          (.matchIn { skills := extractSkillsFromMessage input.message
                      limit := some 5
                      excludeUserId := some input.userId })
        rw [heq] at h
        exact h

theorem processToolCalls_cap (env : Env) (req : AgentRequest) :
    ∀ (calls : List ToolCallReq) (s : OAState), s.toolCallsMade ≤ 2 →
      (processToolCalls env req calls s).1.toolCallsMade ≤ 2 := by
  intro calls
  induction calls with
  | nil => intro s hs; exact hs
  | cons tc rest ih =>
    intro s hs
    cases tc with
    | custom id => exact ih s hs
    | function id name argsRaw =>
      rw [processToolCalls]
      split
      · exact hs
      · rename_i hlt
        unfold MAX_TOOL_CALLS at hlt
        split
        · exact hs
        · split
          · exact ih _ (by show s.toolCallsMade + 1 ≤ 2; omega)
          · exact ih _ (by show s.toolCallsMade + 1 ≤ 2; omega)

theorem agentTurns_cap (env : Env) (req : AgentRequest)
    (llm : List ChatMsg → AssistantMsg) :
    ∀ (fuel : ℕ) (s : OAState), s.toolCallsMade ≤ 2 →
      (agentTurns env req llm fuel s).1.toolCallsMade ≤ 2 := by
  intro fuel
  induction fuel with
  | zero => intro s hs; exact hs
  | succ n ih =>
    intro s hs
    rw [agentTurns]
    split
    · exact hs
    · have hp := processToolCalls_cap env req (llm s.messages).tool_calls
        { s with messages := s.messages ++ [.assistant (llm s.messages)] } hs
      split
      · rename_i s2 e heq
        rw [heq] at hp
        exact hp
      · rename_i s2 heq
        rw [heq] at hp
        split
        · exact hp
        · exact ih s2 hp

theorem runOpenAIAgentCore_cap (env : Env) (req : AgentRequest)
    (llm : List ChatMsg → AssistantMsg)
    (summarize : List ChatMsg → Option PartialResponse) :
    (runOpenAIAgentCore env req llm summarize).toolCallsMade ≤ 2 := by
  unfold runOpenAIAgentCore
  have h := agentTurns_cap env req llm 2 (initialOAState req) (Nat.zero_le 2)
  split <;> rename_i s heq <;> rw [heq] at h <;> exact h

theorem processToolCalls_rejects_beyond_cap (env : Env) (req : AgentRequest)
    (id name : String) (argsRaw : Option ToolArgs) (rest : List ToolCallReq)
    (s : OAState) (k : ℕ) (h : s.toolCallsMade = 2 + k) :
    processToolCalls env req (.function id name argsRaw :: rest) s =
      ({ s with messages := s.messages ++ [.tool id (.error capToolMsg)] },
        none) := by
  rw [processToolCalls]
  rw [if_pos (by rw [h]; exact Nat.le_add_right 2 k)]

/-- C2: neither agent ever executes more than 2 tool calls per invocation.
The bounded agent's output always reports at most 2 calls (and logs at most
2); `executeToolCall` checks the cap before dispatching and, at a count of
2 or more, returns the cap error without executing or logging anything
(state unchanged).  The LLM loop likewise never exceeds 2 dispatches, and a
tool call requested when 2 have already been made receives the synthetic
cap-exceeded tool message instead of being dispatched. -/
theorem C2_tool_call_cap :
    (∀ (env : Env) (input : AgentInput),
      (runBoundedAgent env input).toolCallsMade ≤ 2 ∧
      (runBoundedAgent env input).toolCallLog.length ≤ 2) ∧
    (∀ (env : Env) (tool : String) (ti : BAToolInput)
        (log : List ToolCallRecord) (k : ℕ),
      executeToolCall env tool ti ⟨2 + k, log⟩ =
        (⟨2 + k, log⟩, .error capMessage)) ∧
    (∀ (env : Env) (req : AgentRequest) (llm : List ChatMsg → AssistantMsg)
        (summarize : List ChatMsg → Option PartialResponse),
      (runOpenAIAgentCore env req llm summarize).toolCallsMade ≤ 2) ∧
    (∀ (env : Env) (req : AgentRequest) (id name : String)
        (argsRaw : Option ToolArgs) (rest : List ToolCallReq) (s : OAState)
        (k : ℕ), s.toolCallsMade = 2 + k →
      processToolCalls env req (.function id name argsRaw :: rest) s =
        ({ s with messages := s.messages ++ [.tool id (.error capToolMsg)] },
          none)) :=
  ⟨runBoundedAgent_cap, executeToolCall_cap, runOpenAIAgentCore_cap,
    processToolCalls_rejects_beyond_cap⟩

end TeamForge
